import Mathlib

/-!
# Verification of the TLC4Pipes Loading Optimization Engine

A shallow embedding, over exact rational arithmetic, of the core algorithms of
the TLC4Pipes backend:

* `app/core/calculators/gap_clearance.py` — gap clearance / nesting compatibility,
* `app/core/algorithms/nesting.py` — recursive Matryoshka nesting,
* `app/core/geometry/hexagonal_packing.py` — mixed-diameter stack-height estimate,
* `app/core/algorithms/bin_packing.py` — first-fit-decreasing packing with
  rebalancing (Strategy A) and the truck-count-first search (Strategy B),
* `app/core/geometry/center_of_gravity.py` and
  `app/core/calculators/axle_distribution.py` — axle-load moment balance.

Python `float` values are modelled as rationals (`ℚ`); all arithmetic in the
engine is plain `+ - * /` and comparisons, which the claims under study do not
distinguish from exact arithmetic.  The constant `math.sqrt(3)/2` is modelled by
its floating-point value as a rational.  Presentation-only formatted message
strings (`f"..."` interpolations of numbers) are modelled up to number
formatting; the branch structure and all literal texts are preserved.

Order pipes are dictionaries carrying both `dn_mm` and `outer_diameter_mm`;
the service layer (`loading_service.py`) always sets
`outer_diameter_mm = dn_mm`, so the model collapses the two into a single
field `dn_mm`.
-/

namespace TLC4Pipes

/-- A pipe fact as handed to the engine: `{code, dn_mm, inner_diameter_mm,
weight_per_meter}` (the `outer_diameter_mm` key always equals `dn_mm`, see the
module doc).  `wall_class`/`pressure class` are never read by the engine. -/
structure Pipe where
  code : String
  dn_mm : ℚ
  inner_diameter_mm : ℚ
  weight_per_meter : ℚ
deriving DecidableEq, Repr

/-! ## Gap Clearance Calculator (`gap_clearance.py`) -/

/-- `BASE_CLEARANCE_MM = 15.0`. -/
def BASE_CLEARANCE_MM : ℚ := 15.0

/-- `DIAMETER_FACTOR = 0.015`. -/
def DIAMETER_FACTOR : ℚ := 0.015

/-- `OVALITY_FACTOR = 0.04`. -/
def OVALITY_FACTOR : ℚ := 0.04

/-- `ClearanceResult` dataclass.  The formatted `message` string is
presentation-only and is omitted (no claim depends on it). -/
structure ClearanceResult where
  available_gap_mm : ℚ
  required_gap_mm : ℚ
  is_valid : Bool
  ovality_adjusted_inner_mm : ℚ
deriving DecidableEq, Repr

/-- `calculate_minimum_gap`. -/
def calculate_minimum_gap (outer_diameter_mm : ℚ) : ℚ :=
  BASE_CLEARANCE_MM + DIAMETER_FACTOR * outer_diameter_mm

/-- `calculate_effective_inner_diameter` (with the default
`ovality_factor=OVALITY_FACTOR`, the only way the engine calls it). -/
def calculate_effective_inner_diameter (inner_diameter_mm outer_diameter_mm : ℚ) : ℚ :=
  inner_diameter_mm - outer_diameter_mm * OVALITY_FACTOR

/-- `validate_nesting_compatibility`. -/
def validate_nesting_compatibility (host_inner_diameter_mm host_outer_diameter_mm
    guest_outer_diameter_mm : ℚ) (apply_ovality : Bool) : ClearanceResult :=
  let effective_inner :=
    if apply_ovality then
      calculate_effective_inner_diameter host_inner_diameter_mm host_outer_diameter_mm
    else host_inner_diameter_mm
  let available_gap := effective_inner - guest_outer_diameter_mm
  let required_gap := calculate_minimum_gap host_outer_diameter_mm
  { available_gap_mm := available_gap
    required_gap_mm := required_gap
    is_valid := decide (available_gap ≥ required_gap)
    ovality_adjusted_inner_mm := effective_inner }

/-- `find_compatible_pipes`: keep candidates that are strictly narrower than the
host and pass `validate_nesting_compatibility`, sorted by outer diameter
descending.  Python's `list.sort`/`sorted` is a stable sort; it is modelled
throughout by the stable `List.insertionSort`, which computes the same list as
any stable sort by the same key.  The code decorates each kept dict with its
`clearance_result`; the decoration is never read by the nesting engine and is
dropped here. -/
def find_compatible_pipes (host_inner host_outer : ℚ) (candidate_pipes : List Pipe)
    (apply_ovality : Bool) : List Pipe :=
  let compatible := candidate_pipes.filter (fun c =>
    decide (c.dn_mm < host_outer) &&
    (validate_nesting_compatibility host_inner host_outer c.dn_mm apply_ovality).is_valid)
  compatible.insertionSort (fun a b => b.dn_mm ≤ a.dn_mm)

/-! ## Weight calculator (`weight_calculator.py`) -/

/-- `HEAVY_EXTRACTION_THRESHOLD_KG = 2000`. -/
def HEAVY_EXTRACTION_THRESHOLD_KG : ℚ := 2000

/-- `calculate_bundle_weight(pipes, pipe_length_m)`: sum of
`weight_per_meter × pipe_length_m` over the pipes of a bundle. -/
def calculate_bundle_weight (pipes : List Pipe) (pipe_length_m : ℚ) : ℚ :=
  (pipes.map (fun p => p.weight_per_meter * pipe_length_m)).sum

/-! ## Nesting Engine (`nesting.py`) -/

/-- `MAX_NESTING_LEVELS = 10` (module constant, the default `max_levels`). -/
def MAX_NESTING_LEVELS : Nat := 10

/-- The default of the `max_nesting_levels` parameter of
`pack_pipes_into_trucks` (and of the service layer). -/
def DEFAULT_MAX_NESTING_LEVELS : Nat := 4

/-- `NestedPipe` dataclass: a pipe together with the list of pipes nested one
level deeper inside it. -/
inductive NestedPipe where
  | mk (pipe_data : Pipe) (nested_pipes : List NestedPipe) (level : Nat)

mutual

/-- Decidable equality for `NestedPipe` (the automatic derivation does not
handle nested inductives). -/
def NestedPipe.decEq : (a b : NestedPipe) → Decidable (a = b)
  | .mk p1 cs1 l1, .mk p2 cs2 l2 =>
    if h1 : p1 = p2 then
      if h2 : l1 = l2 then
        match NestedPipe.decEqList cs1 cs2 with
        | isTrue h3 => isTrue (by rw [h1, h2, h3])
        | isFalse h3 => isFalse (by intro h; injection h; contradiction)
      else isFalse (by intro h; injection h; contradiction)
    else isFalse (by intro h; injection h; contradiction)

/-- Decidable equality for lists of `NestedPipe`. -/
def NestedPipe.decEqList : (as bs : List NestedPipe) → Decidable (as = bs)
  | [], [] => isTrue rfl
  | a :: as, b :: bs =>
    match NestedPipe.decEq a b with
    | isTrue h =>
      match NestedPipe.decEqList as bs with
      | isTrue h2 => isTrue (by rw [h, h2])
      | isFalse h2 => isFalse (by intro hh; injection hh; contradiction)
    | isFalse h => isFalse (by intro hh; injection hh; contradiction)
  | [], _ :: _ => isFalse (by intro h; exact List.noConfusion h)
  | _ :: _, [] => isFalse (by intro h; exact List.noConfusion h)

end

instance : DecidableEq NestedPipe := NestedPipe.decEq

/-- `NestedPipe.pipe_data`. -/
def NestedPipe.pipe_data : NestedPipe → Pipe
  | .mk p _ _ => p

/-- `NestedPipe.nested_pipes`. -/
def NestedPipe.nested_pipes : NestedPipe → List NestedPipe
  | .mk _ cs _ => cs

/-- `NestedPipe.outer_diameter` (`outer_diameter_mm or dn_mm`; the two always
coincide, see the module doc). -/
def NestedPipe.outer_diameter (b : NestedPipe) : ℚ := b.pipe_data.dn_mm

/-- `NestedPipe.inner_diameter`. -/
def NestedPipe.inner_diameter (b : NestedPipe) : ℚ := b.pipe_data.inner_diameter_mm

/-- `NestedPipe.weight_per_meter`. -/
def NestedPipe.weight_per_meter (b : NestedPipe) : ℚ := b.pipe_data.weight_per_meter

mutual

/-- `NestedPipe.total_nesting_levels`: `1` for a leaf, else `1 + max` over the
children (Python's `max` over the non-empty list, as a fold). -/
def NestedPipe.total_nesting_levels : NestedPipe → Nat
  | .mk _ cs _ =>
      match NestedPipe.levelsList cs with
      | [] => 1
      | x :: xs => 1 + xs.foldl Nat.max x

/-- The depths of a list of bundles. -/
def NestedPipe.levelsList : List NestedPipe → List Nat
  | [] => []
  | c :: cs => c.total_nesting_levels :: NestedPipe.levelsList cs

end

mutual

/-- `NestedPipe.get_all_pipes`: preorder flattening of the bundle tree. -/
def NestedPipe.get_all_pipes : NestedPipe → List Pipe
  | .mk p cs _ => p :: NestedPipe.getAllPipesList cs

/-- The `for nested in self.nested_pipes: pipes.extend(nested.get_all_pipes())`
loop of `get_all_pipes`. -/
def NestedPipe.getAllPipesList : List NestedPipe → List Pipe
  | [] => []
  | c :: cs => c.get_all_pipes ++ NestedPipe.getAllPipesList cs

end

/-- `NestedPipe.calculate_bundle_weight`. -/
def NestedPipe.calculate_bundle_weight (b : NestedPipe) (pipe_length_m : ℚ) : ℚ :=
  TLC4Pipes.calculate_bundle_weight b.get_all_pipes pipe_length_m

/-- `NestingResult` dataclass. -/
structure NestingResult where
  bundles : List NestedPipe
  unpacked_pipes : List Pipe
  total_pipes_processed : Nat
  pipes_nested : Nat
  reduction_ratio : ℚ

/-- The `compatible.sort(key=lambda p: p.get("weight_per_meter", 0))` step of
`nest_pipe_recursive` (Python's stable ascending sort). -/
def sortByWeightAsc (pipes : List Pipe) : List Pipe :=
  pipes.insertionSort (fun a b => a.weight_per_meter ≤ b.weight_per_meter)

/-- One step of the `for pipe in compatible` best-fit loop of
`nest_pipe_recursive`: replace the current best when the candidate has a
strictly larger `dn_mm`, unless `prefer_lighter` holds and the candidate is
more than 1.5× heavier (per meter) than the host. -/
def bestFitStep (prefer_lighter : Bool) (host_weight : ℚ) (best : Option Pipe)
    (pipe : Pipe) : Option Pipe :=
  match best with
  | none =>
      if prefer_lighter && decide (pipe.weight_per_meter > host_weight * 1.5) then none
      else some pipe
  | some b =>
      if pipe.dn_mm > b.dn_mm then
        if prefer_lighter && decide (pipe.weight_per_meter > host_weight * 1.5) then some b
        else some pipe
      else some b

/-- The whole best-fit loop: `best_fit = None; for pipe in compatible: ...`. -/
def selectBestFit (prefer_lighter : Bool) (host_weight : ℚ) (compatible : List Pipe) :
    Option Pipe :=
  compatible.foldl (bestFitStep prefer_lighter host_weight) none

/-- The `for i, p in enumerate(remaining): if p.get("code") == target_code:
remaining.pop(i); break` removal: drop the first pipe whose `code` matches. -/
def removeFirstByCode (target_code : String) : List Pipe → List Pipe
  | [] => []
  | p :: rest => if p.code = target_code then rest else p :: removeFirstByCode target_code rest

/-- `NestedPipe` with one more child appended (`host.nested_pipes.append(nested)`). -/
def NestedPipe.appendChild (host : NestedPipe) (child : NestedPipe) : NestedPipe :=
  .mk host.pipe_data (host.nested_pipes ++ [child]) (match host with | .mk _ _ l => l)

/-- The `if prefer_lighter: compatible.sort(...)` re-ranking step of
`nest_pipe_recursive`. -/
def rankCompatible (prefer_lighter : Bool) (compatible : List Pipe) : List Pipe :=
  if prefer_lighter then sortByWeightAsc compatible else compatible

/-- The recursion of `nest_pipe_recursive`, made structural on the fuel
`max_levels - current_level`.  The fuel equals `max_levels - current_level` at
every call (the wrapper establishes it, the recursive call maintains it), so
the `fuel = 0` fallback below is only reachable when the
`current_level ≥ max_levels` guard has already returned; it is given the same
value as that guard. -/
def nestPipeAux (fuel : Nat) (host : NestedPipe) (available_pipes : List Pipe)
    (max_levels current_level : Nat) (prefer_lighter : Bool) :
    NestedPipe × List Pipe :=
  if current_level ≥ max_levels then (host, available_pipes)
  else
    match fuel with
    | 0 => (host, available_pipes)
    | fuel + 1 =>
        if available_pipes.isEmpty then (host, available_pipes)
        else if (find_compatible_pipes host.inner_diameter host.outer_diameter
            available_pipes true).isEmpty then (host, available_pipes)
        else
          match selectBestFit prefer_lighter host.weight_per_meter
              (rankCompatible prefer_lighter (find_compatible_pipes host.inner_diameter
                host.outer_diameter available_pipes true)) with
          | none => (host, available_pipes)
          | some best_fit =>
              (host.appendChild
                (nestPipeAux fuel (.mk best_fit [] current_level)
                  (removeFirstByCode best_fit.code available_pipes)
                  max_levels (current_level + 1) prefer_lighter).1,
               (nestPipeAux fuel (.mk best_fit [] current_level)
                  (removeFirstByCode best_fit.code available_pipes)
                  max_levels (current_level + 1) prefer_lighter).2)

/-- `nest_pipe_recursive(host, available_pipes, max_levels, current_level,
prefer_lighter)`: returns the updated host and the pipes that remain
available.  `apply_ovality` is left at its default `True` by the engine. -/
def nest_pipe_recursive (host : NestedPipe) (available_pipes : List Pipe)
    (max_levels current_level : Nat) (prefer_lighter : Bool) :
    NestedPipe × List Pipe :=
  nestPipeAux (max_levels - current_level) host available_pipes max_levels
    current_level prefer_lighter

/-- The `while remaining:` loop of `create_nested_bundles`, made structural on
a fuel that the caller sets to the length of the remaining list (the pool
shrinks by at least one pipe per iteration — the popped host — so the fuel
never runs out on reachable states). -/
def createBundlesLoopAux (max_levels : Nat) (prefer_lighter : Bool) :
    Nat → List Pipe → List NestedPipe
  | _, [] => []
  | 0, _ :: _ => []
  | fuel + 1, host_data :: rest =>
      let res := nest_pipe_recursive (.mk host_data [] 0) rest max_levels 1 prefer_lighter
      res.1 :: createBundlesLoopAux max_levels prefer_lighter fuel res.2

/-- The `while remaining:` loop of `create_nested_bundles`. -/
def createBundlesLoop (max_levels : Nat) (prefer_lighter : Bool)
    (remaining : List Pipe) : List NestedPipe :=
  createBundlesLoopAux max_levels prefer_lighter remaining.length remaining

/-- `create_nested_bundles(pipes, pipe_length_m, max_levels, prefer_lighter)`.
`pipe_length_m` is unused by the function itself (it only feeds logging); the
parameter is kept for fidelity to the Python signature. -/
def create_nested_bundles (pipes : List Pipe) (pipe_length_m : ℚ) (max_levels : Nat)
    (prefer_lighter : Bool) : NestingResult :=
  if pipes.isEmpty then
    { bundles := [], unpacked_pipes := [], total_pipes_processed := 0,
      pipes_nested := 0, reduction_ratio := 0 }
  else
    let sorted_pipes := pipes.insertionSort (fun a b => b.dn_mm ≤ a.dn_mm)
    let bundles := createBundlesLoop max_levels prefer_lighter sorted_pipes
    let total_pipes : Nat := pipes.length
    let nested_count : Nat := (bundles.map (fun b => b.get_all_pipes.length - 1)).sum
    let reduction_ratio : ℚ :=
      if total_pipes > 0 then (nested_count : ℚ) / (total_pipes : ℚ) else 0
    { bundles := bundles
      unpacked_pipes := []
      total_pipes_processed := total_pipes
      pipes_nested := nested_count
      reduction_ratio := reduction_ratio }

-- `pipe_length_m` is unused by `create_nested_bundles` itself (it only feeds
-- logging); it is kept in the signature for fidelity.

/-! ## Spatial Fit Estimator (`hexagonal_packing.py`) -/

/-- `SQRT3_OVER_2 = math.sqrt(3) / 2`: the floating-point value of `√3/2`,
as a rational (shortest decimal representation of the IEEE double). -/
def SQRT3_OVER_2 : ℚ := 0.8660254037844386

/-- The row-building loop of `estimate_mixed_stack_height`: walk the sorted
diameters, accumulating `diameter + gap` of horizontal width per row; when a
diameter would overflow `container_width_mm`, close the current row (recording
its maximum diameter, when positive) and start a new one.  `current_z` is the
accumulated width, `row_max` the running maximum of the current row. -/
def stackRows (container_width_mm gap_mm : ℚ) :
    List ℚ → ℚ → ℚ → List ℚ
  | [], _, row_max => if 0 < row_max then [row_max] else []
  | d :: ds, current_z, row_max =>
      if container_width_mm < current_z + d then
        if 0 < row_max then
          row_max :: stackRows container_width_mm gap_mm ds (d + gap_mm) d
        else
          stackRows container_width_mm gap_mm ds (d + gap_mm) d
      else
        stackRows container_width_mm gap_mm ds (current_z + d + gap_mm) (max row_max d)

/-- The height-accumulation loop of `estimate_mixed_stack_height`: for each row
after the first, add `average(previous row max, this row max) × √3/2`. -/
def hexExtraHeights : ℚ → List ℚ → ℚ
  | _, [] => 0
  | prev, r :: rs => (prev + r) / 2 * SQRT3_OVER_2 + hexExtraHeights r rs

/-- `estimate_mixed_stack_height(diameters, container_width_mm, gap_mm)`
(default `gap_mm = 20.0`). -/
def estimate_mixed_stack_height (diameters : List ℚ) (container_width_mm gap_mm : ℚ) :
    ℚ :=
  if diameters.isEmpty then 0
  else
    let sorted_diameters := diameters.insertionSort (fun a b => b ≤ a)
    match stackRows container_width_mm gap_mm sorted_diameters 0 0 with
    | [] => 0
    | r :: rs => r + hexExtraHeights r rs

/-! ## Bin Packing Engine (`bin_packing.py`) -/

/-- The truck-configuration values the packing engine reads from the
`truck_config` dict (after `config = {**truck_config, "pipe_length_m": ...}`):
`max_payload_kg` (default 24000), `internal_height_mm` (default 2700),
`internal_width_mm` (default 2480) and `pipe_length_m` (default 12.0). -/
structure TruckConfig where
  max_payload_kg : ℚ
  internal_height_mm : ℚ
  internal_width_mm : ℚ
  pipe_length_m : ℚ
deriving DecidableEq, Repr

/-- `TruckLoad` dataclass: a truck number and the bundles loaded so far.
Every `TruckLoad` of one packing run carries the same `truck_config` dict; the
model passes that shared `TruckConfig` to the operations instead of storing a
copy in each load. -/
structure TruckLoad where
  truck_number : Nat
  bundles : List NestedPipe
deriving DecidableEq

/-- `TruckLoad.total_weight_kg`. -/
def TruckLoad.total_weight_kg (cfg : TruckConfig) (t : TruckLoad) : ℚ :=
  (t.bundles.map (fun b => b.calculate_bundle_weight cfg.pipe_length_m)).sum

/-- `TruckLoad.remaining_capacity_kg`. -/
def TruckLoad.remaining_capacity_kg (cfg : TruckConfig) (t : TruckLoad) : ℚ :=
  cfg.max_payload_kg - t.total_weight_kg cfg

/-- `TruckLoad.weight_utilization_pct`. -/
def TruckLoad.weight_utilization_pct (cfg : TruckConfig) (t : TruckLoad) : ℚ :=
  t.total_weight_kg cfg / cfg.max_payload_kg * 100

/-- `TruckLoad._can_fit_spatially`: estimated stack height of the already
loaded bundle diameters plus the candidate must stay within the truck's
internal height. -/
def TruckLoad.can_fit_spatially (cfg : TruckConfig) (t : TruckLoad)
    (bundle : NestedPipe) : Bool :=
  decide (estimate_mixed_stack_height
    (t.bundles.map (fun b => b.outer_diameter) ++ [bundle.outer_diameter])
    cfg.internal_width_mm 20.0 ≤ cfg.internal_height_mm)

/-- `TruckLoad.can_fit`: weight check first, then the spatial check. -/
def TruckLoad.can_fit (cfg : TruckConfig) (t : TruckLoad) (bundle : NestedPipe) :
    Bool :=
  if bundle.calculate_bundle_weight cfg.pipe_length_m > t.remaining_capacity_kg cfg then
    false
  else
    t.can_fit_spatially cfg bundle

/-- `TruckLoad.add_bundle` when it succeeds: the bundle is appended. -/
def TruckLoad.withBundle (t : TruckLoad) (bundle : NestedPipe) : TruckLoad :=
  { t with bundles := t.bundles ++ [bundle] }

/-- `PackingResult` dataclass. -/
structure PackingResult where
  trucks : List TruckLoad
  total_trucks_needed : Nat
  total_weight_kg : ℚ
  average_utilization_pct : ℚ
deriving DecidableEq

/-- The `for truck in trucks: if truck.add_bundle(bundle): break` scan (also
the inner scan of the rebalancing pass): append the bundle to the first truck
where `can_fit` holds, or report that none can take it. -/
def placeInFirst (cfg : TruckConfig) : List TruckLoad → NestedPipe →
    Option (List TruckLoad)
  | [], _ => none
  | t :: ts, bd =>
      if t.can_fit cfg bd then some (t.withBundle bd :: ts)
      else
        match placeInFirst cfg ts bd with
        | some ts' => some (t :: ts')
        | none => none

/-- One bundle-placement step of `first_fit_decreasing`: place into the first
fitting truck, else open a new truck.  NOTE (faithful to the code): the
`new_truck.add_bundle(bundle)` return value is ignored, so when the bundle
does not fit even an empty truck it is silently dropped and the new truck
stays empty. -/
def ffdInsert (cfg : TruckConfig) (trucks : List TruckLoad) (bundle : NestedPipe) :
    List TruckLoad :=
  match placeInFirst cfg trucks bundle with
  | some trucks' => trucks'
  | none =>
      if (TruckLoad.mk (trucks.length + 1) []).can_fit cfg bundle then
        trucks ++ [(TruckLoad.mk (trucks.length + 1) []).withBundle bundle]
      else
        trucks ++ [TruckLoad.mk (trucks.length + 1) []]

/-- The `for bundle in last_truck.bundles:` pass of `_rebalance_trucks`:
try to move each bundle of the last truck into an earlier truck.  Returns the
updated earlier trucks, the bundles that stayed in the last truck, and whether
any bundle moved. -/
def moveBundlesToEarlier (cfg : TruckConfig) (earlier : List TruckLoad) :
    List NestedPipe → List TruckLoad × List NestedPipe × Bool
  | [] => (earlier, [], false)
  | bd :: bs =>
      match placeInFirst cfg earlier bd with
      | some earlier' =>
          let r := moveBundlesToEarlier cfg earlier' bs
          (r.1, r.2.1, true)
      | none =>
          let r := moveBundlesToEarlier cfg earlier bs
          (r.1, bd :: r.2.1, r.2.2)

/-- The `for _ in range(max_iterations)` loop of `_rebalance_trucks`
(`max_iterations = 10`): try to empty the last truck; pop it when it empties
(stopping when ≤ 1 truck remains); stop when an iteration makes no move. -/
def rebalanceLoop (cfg : TruckConfig) : Nat → List TruckLoad → List TruckLoad
  | 0, trucks => trucks
  | fuel + 1, trucks =>
      match trucks.getLast? with
      | none => trucks
      | some last =>
          let r := moveBundlesToEarlier cfg trucks.dropLast last.bundles
          if r.2.1.isEmpty then
            if r.1.length ≤ 1 then r.1
            else rebalanceLoop cfg fuel r.1
          else
            if r.2.2 then rebalanceLoop cfg fuel (r.1 ++ [{ last with bundles := r.2.1 }])
            else r.1 ++ [{ last with bundles := r.2.1 }]

/-- `source.bundles.remove(bundle)`: drop the first element equal to the moved
bundle. -/
def eraseFirstBundle (bd : NestedPipe) : List NestedPipe → List NestedPipe
  | [] => []
  | b :: bs => if b = bd then bs else b :: eraseFirstBundle bd bs

/-- The move-search loop of `_try_balance_pair`: scan the source's bundles in
ascending weight order and move the first one that fits the target and shrinks
the weight gap by at least 10%. -/
def moveSmallestImproving (cfg : TruckConfig) (source target : TruckLoad) :
    Option (TruckLoad × TruckLoad) :=
  let sorted_bundles := source.bundles.insertionSort (fun x y =>
    x.calculate_bundle_weight cfg.pipe_length_m ≤
      y.calculate_bundle_weight cfg.pipe_length_m)
  let old_diff := |source.total_weight_kg cfg - target.total_weight_kg cfg|
  match sorted_bundles.find? (fun bd =>
      target.can_fit cfg bd &&
      decide (|(source.total_weight_kg cfg - bd.calculate_bundle_weight cfg.pipe_length_m) -
               (target.total_weight_kg cfg + bd.calculate_bundle_weight cfg.pipe_length_m)| <
              old_diff * 0.9)) with
  | none => none
  | some bd =>
      some ({ source with bundles := eraseFirstBundle bd source.bundles },
            target.withBundle bd)

/-- `_try_balance_pair(truck_a, truck_b)`: returns the updated pair and the
`moved` flag. -/
def tryBalancePair (cfg : TruckConfig) (a b : TruckLoad) :
    TruckLoad × TruckLoad × Bool :=
  let util_a := a.weight_utilization_pct cfg
  let util_b := b.weight_utilization_pct cfg
  if |util_a - util_b| < 15 then (a, b, false)
  else if util_a > util_b then
    match moveSmallestImproving cfg a b with
    | none => (a, b, false)
    | some (s, t) => (s, t, true)
  else
    match moveSmallestImproving cfg b a with
    | none => (a, b, false)
    | some (s, t) => (t, s, true)

/-- Apply `_try_balance_pair` to positions `i < j` of the truck list (the
Python code mutates the two list entries in place). -/
def tryBalancePairAt (cfg : TruckConfig) (trucks : List TruckLoad) (i j : Nat) :
    List TruckLoad × Bool :=
  match trucks[i]?, trucks[j]? with
  | some a, some b =>
      let r := tryBalancePair cfg a b
      ((trucks.set i r.1).set j r.2.1, r.2.2)
  | _, _ => (trucks, false)

/-- The index pairs `(i, j)` with `i < j` visited by the double loop of
`_optimize_distribution`, in visiting order. -/
def pairIndices (n : Nat) : List (Nat × Nat) :=
  (List.range n).flatMap (fun i =>
    (List.range n).filterMap (fun j => if i < j then some (i, j) else none))

/-- One sweep of `_optimize_distribution` over all truck pairs. -/
def optimizeOnce (cfg : TruckConfig) (trucks : List TruckLoad) :
    List TruckLoad × Bool :=
  (pairIndices trucks.length).foldl
    (fun acc ij =>
      let r := tryBalancePairAt cfg acc.1 ij.1 ij.2
      (r.1, acc.2 || r.2))
    (trucks, false)

/-- The `for _ in range(max_iterations)` loop of `_optimize_distribution`
(`max_iterations = 20`): sweep until a sweep makes no move. -/
def optimizeLoop (cfg : TruckConfig) : Nat → List TruckLoad → List TruckLoad
  | 0, trucks => trucks
  | fuel + 1, trucks =>
      let r := optimizeOnce cfg trucks
      if r.2 then optimizeLoop cfg fuel r.1 else r.1

/-- `_optimize_distribution`. -/
def optimize_distribution (cfg : TruckConfig) (trucks : List TruckLoad) :
    List TruckLoad :=
  if trucks.length ≤ 1 then trucks
  else optimizeLoop cfg 20 trucks

/-- `_rebalance_trucks`. -/
def rebalance_trucks (cfg : TruckConfig) (trucks : List TruckLoad) :
    List TruckLoad :=
  if trucks.length ≤ 1 then trucks
  else optimize_distribution cfg (rebalanceLoop cfg 10 trucks)

/-- The `sorted(bundles, key=weight, reverse=True)` step of
`first_fit_decreasing` (stable descending sort by bundle weight). -/
def sortBundlesByWeightDesc (pipe_length_m : ℚ) (bundles : List NestedPipe) :
    List NestedPipe :=
  bundles.insertionSort (fun a b =>
    b.calculate_bundle_weight pipe_length_m ≤ a.calculate_bundle_weight pipe_length_m)

/-- The renumbering pass `for i, truck in enumerate(trucks):
truck.truck_number = i + 1`, with `i` starting at `start`. -/
def renumberTrucksAux (start : Nat) : List TruckLoad → List TruckLoad
  | [] => []
  | t :: ts => { t with truck_number := start + 1 } :: renumberTrucksAux (start + 1) ts

/-- The renumbering pass of `first_fit_decreasing`. -/
def renumberTrucks (trucks : List TruckLoad) : List TruckLoad :=
  renumberTrucksAux 0 trucks

/-- `first_fit_decreasing(bundles, truck_config, pipe_length_m)` (Strategy A).
The code merges `pipe_length_m` into the config dict; here `cfg` is that
merged configuration. -/
def first_fit_decreasing (bundles : List NestedPipe) (cfg : TruckConfig) :
    PackingResult :=
  if bundles.isEmpty then
    { trucks := [], total_trucks_needed := 0, total_weight_kg := 0,
      average_utilization_pct := 0 }
  else
    let sorted_bundles := sortBundlesByWeightDesc cfg.pipe_length_m bundles
    let trucks := sorted_bundles.foldl (ffdInsert cfg) []
    let trucks := renumberTrucks (rebalance_trucks cfg trucks)
    let total_weight := (trucks.map (TruckLoad.total_weight_kg cfg)).sum
    let avg_util : ℚ :=
      if trucks.isEmpty then 0
      else (trucks.map (TruckLoad.weight_utilization_pct cfg)).sum / (trucks.length : ℚ)
    { trucks := trucks
      total_trucks_needed := trucks.length
      total_weight_kg := total_weight
      average_utilization_pct := avg_util }

/-! ## Strategy B — truck-count-first search (`pack_pipes_into_trucks`) -/

/-- `total_weight = sum(p.get("weight_per_meter", 0) * pipe_length_m for p in
pipes)`. -/
def total_pipe_weight (pipes : List Pipe) (pipe_length_m : ℚ) : ℚ :=
  (pipes.map (fun p => p.weight_per_meter * pipe_length_m)).sum

/-- Python's `int()` on a float: truncation toward zero. -/
def pyInt (q : ℚ) : ℤ := if 0 ≤ q then ⌊q⌋ else ⌈q⌉

/-- `min_trucks_by_weight = max(1, int((total_weight / max_payload) + 0.99))`
(the code's intended-ceiling computation). -/
def min_trucks_by_weight (total_weight max_payload : ℚ) : Nat :=
  max 1 (pyInt (total_weight / max_payload + 0.99)).toNat

/-- `sorted(pipes, key=lambda p: (p["dn_mm"], p["weight_per_meter"]),
reverse=True)`: stable descending sort by the (diameter, weight) pair. -/
def sortPipesByDnWeightDesc (pipes : List Pipe) : List Pipe :=
  pipes.insertionSort (fun a b =>
    b.dn_mm < a.dn_mm ∨ (b.dn_mm = a.dn_mm ∧ b.weight_per_meter ≤ a.weight_per_meter))

/-- The `for i in range(n_trucks): if truck_weights[i] + pipe_weight <=
max_payload: ...` scan of `_try_pack_with_n_trucks`: put the pipe into the
first truck slot whose running weight stays within the payload. -/
def placePipeGreedy (max_payload pipe_weight : ℚ) (p : Pipe) :
    List (List Pipe × ℚ) → Option (List (List Pipe × ℚ))
  | [] => none
  | (ps, w) :: rest =>
      if w + pipe_weight ≤ max_payload then some ((ps ++ [p], w + pipe_weight) :: rest)
      else
        match placePipeGreedy max_payload pipe_weight p rest with
        | some rest' => some ((ps, w) :: rest')
        | none => none

/-- The pipe-distribution loop of `_try_pack_with_n_trucks`; `none` when some
pipe fits no truck slot. -/
def greedyDistribute (max_payload pipe_length_m : ℚ) :
    List Pipe → List (List Pipe × ℚ) → Option (List (List Pipe × ℚ))
  | [], state => some state
  | p :: ps, state =>
      match placePipeGreedy max_payload (p.weight_per_meter * pipe_length_m) p state with
      | none => none
      | some state' => greedyDistribute max_payload pipe_length_m ps state'

/-- The `for bundle in bundles: if not truck.add_bundle(bundle): return None`
loop: add each bundle, failing when one does not fit. -/
def addBundlesChecked (cfg : TruckConfig) (t : TruckLoad) :
    List NestedPipe → Option TruckLoad
  | [] => some t
  | b :: bs =>
      if t.can_fit cfg b then addBundlesChecked cfg (t.withBundle b) bs else none

/-- The per-truck phase of `_try_pack_with_n_trucks`: for the `i`-th pipe
allocation (skipping empty ones), nest the allocated pipes (or wrap them as
singleton bundles), then add the bundles to a fresh truck numbered `i + 1`,
validating weight and spatial fit; `none` as soon as one truck fails. -/
def buildTrucksFromAllocations (cfg : TruckConfig) (enable_nesting : Bool)
    (max_nesting_levels : Nat) : List (List Pipe) → Nat → Option (List TruckLoad)
  | [], _ => some []
  | pipes_for_truck :: rest, i =>
      if pipes_for_truck.isEmpty then
        buildTrucksFromAllocations cfg enable_nesting max_nesting_levels rest (i + 1)
      else
        let bundles :=
          if enable_nesting then
            (create_nested_bundles pipes_for_truck cfg.pipe_length_m
              max_nesting_levels true).bundles
          else pipes_for_truck.map (fun p => NestedPipe.mk p [] 0)
        match addBundlesChecked cfg { truck_number := i + 1, bundles := [] } bundles with
        | none => none
        | some t =>
            match buildTrucksFromAllocations cfg enable_nesting max_nesting_levels
                rest (i + 1) with
            | none => none
            | some ts => some (t :: ts)

/-- `_try_pack_with_n_trucks(pipes, config, pipe_length_m, n_trucks,
enable_nesting, max_nesting_levels)`. -/
def try_pack_with_n_trucks (pipes : List Pipe) (cfg : TruckConfig) (n_trucks : Nat)
    (enable_nesting : Bool) (max_nesting_levels : Nat) : Option PackingResult :=
  let sorted_pipes := sortPipesByDnWeightDesc pipes
  match greedyDistribute cfg.max_payload_kg cfg.pipe_length_m sorted_pipes
      (List.replicate n_trucks ([], 0)) with
  | none => none
  | some state =>
      match buildTrucksFromAllocations cfg enable_nesting max_nesting_levels
          (state.map Prod.fst) 0 with
      | none => none
      | some trucks =>
          let total_weight := (trucks.map (TruckLoad.total_weight_kg cfg)).sum
          let avg_util : ℚ :=
            if trucks.isEmpty then 0
            else (trucks.map (TruckLoad.weight_utilization_pct cfg)).sum /
              (trucks.length : ℚ)
          some { trucks := trucks
                 total_trucks_needed := trucks.length
                 total_weight_kg := total_weight
                 average_utilization_pct := avg_util }

/-- The `for num_trucks in range(min_trucks, min_trucks + 5)` search of
`pack_pipes_into_trucks`: return the first successful attempt. -/
def searchPackN (pipes : List Pipe) (cfg : TruckConfig) (enable_nesting : Bool)
    (max_nesting_levels : Nat) : Nat → Nat → Option PackingResult
  | 0, _ => none
  | fuel + 1, n =>
      match try_pack_with_n_trucks pipes cfg n enable_nesting max_nesting_levels with
      | some r => some r
      | none => searchPackN pipes cfg enable_nesting max_nesting_levels fuel (n + 1)

/-- `pack_pipes_into_trucks(pipes, truck_config, pipe_length_m,
enable_nesting, max_nesting_levels)` (Strategy B with Strategy-A fallback).
As for `first_fit_decreasing`, `cfg` is the config dict with `pipe_length_m`
merged in. -/
def pack_pipes_into_trucks (pipes : List Pipe) (cfg : TruckConfig)
    (enable_nesting : Bool) (max_nesting_levels : Nat) : PackingResult :=
  if pipes.isEmpty then
    { trucks := [], total_trucks_needed := 0, total_weight_kg := 0,
      average_utilization_pct := 0 }
  else
    let total_weight := total_pipe_weight pipes cfg.pipe_length_m
    let min_trucks := min_trucks_by_weight total_weight cfg.max_payload_kg
    match searchPackN pipes cfg enable_nesting max_nesting_levels 5 min_trucks with
    | some r => r
    | none =>
        let bundles :=
          if enable_nesting then
            (create_nested_bundles pipes cfg.pipe_length_m max_nesting_levels true).bundles
          else pipes.map (fun p => NestedPipe.mk p [] 0)
        first_fit_decreasing bundles cfg

/-! ## Center of gravity / axle distribution
(`center_of_gravity.py`, `axle_distribution.py`, constants from
`utils/constants.py`) -/

/-- `MAX_AXLE_WEIGHT_MOTOR_KG = 11500`. -/
def MAX_AXLE_WEIGHT_MOTOR_KG : ℚ := 11500

/-- `MAX_AXLE_WEIGHT_TRAILER_KG = 8000` (per trailer axle, 3 axles). -/
def MAX_AXLE_WEIGHT_TRAILER_KG : ℚ := 8000

/-- `KINGPIN_POSITION_M = 1.5`. -/
def KINGPIN_POSITION_M : ℚ := 1.5

/-- Python's `round(q)` (to 0 digits): nearest integer, ties to even. -/
def pyRound0 (q : ℚ) : ℚ :=
  let f : ℤ := ⌊q⌋
  if q - f < 1 / 2 then (f : ℚ)
  else if q - f > 1 / 2 then (f + 1 : ℤ)
  else if 2 ∣ f then (f : ℚ) else (f + 1 : ℤ)

/-- Python's `round(q, n)` for `n` decimal digits (ties to even). -/
def pyRound (q : ℚ) (n : Nat) : ℚ := pyRound0 (q * 10 ^ n) / 10 ^ n

/-- `AxleLoadResult` dataclass (`center_of_gravity.py`).  Message strings with
`:.0f`-formatted numbers are modelled with the number rendered via `pyRound0`. -/
structure AxleLoadResult where
  kingpin_load_kg : ℚ
  axle_group_load_kg : ℚ
  kingpin_valid : Bool
  axle_valid : Bool
  total_valid : Bool
  messages : List String
deriving DecidableEq, Repr

/-- The `f"Kingpin overload by {overload:.0f} kg. ..."` message. -/
def kingpinOverloadMessage (overload : ℚ) : String :=
  "Kingpin overload by " ++ toString (pyRound0 overload).num ++
    " kg. Move load back toward axles."

/-- The `f"Axle group overload by {overload:.0f} kg. ..."` message. -/
def axleOverloadMessage (overload : ℚ) : String :=
  "Axle group overload by " ++ toString (pyRound0 overload).num ++
    " kg. Move load forward toward kingpin."

/-- `calculate_axle_loads(total_weight_kg, cog_x_m, trailer_length_m,
kingpin_position_m, axle_position_m)`; `axle_position_m = None` defaults to
`trailer_length_m - 1.5`. -/
def calculate_axle_loads (total_weight_kg cog_x_m trailer_length_m
    kingpin_position_m : ℚ) (axle_position_opt : Option ℚ) : AxleLoadResult :=
  let axle_position_m := axle_position_opt.getD (trailer_length_m - 1.5)
  let cog_to_kingpin := cog_x_m - kingpin_position_m
  let axle_to_kingpin := axle_position_m - kingpin_position_m
  if axle_to_kingpin ≤ 0 then
    { kingpin_load_kg := total_weight_kg
      axle_group_load_kg := 0
      kingpin_valid := false
      axle_valid := true
      total_valid := false
      messages := ["Invalid axle configuration"] }
  else
    let axle_load := total_weight_kg * cog_to_kingpin / axle_to_kingpin
    let kingpin_load := total_weight_kg - axle_load
    let kingpin_valid := decide (kingpin_load ≤ MAX_AXLE_WEIGHT_MOTOR_KG)
    let axle_valid := decide (axle_load ≤ MAX_AXLE_WEIGHT_TRAILER_KG * 3)
    { kingpin_load_kg := kingpin_load
      axle_group_load_kg := axle_load
      kingpin_valid := kingpin_valid
      axle_valid := axle_valid
      total_valid := kingpin_valid && axle_valid
      messages :=
        (if kingpin_valid then [] else
          [kingpinOverloadMessage (kingpin_load - MAX_AXLE_WEIGHT_MOTOR_KG)]) ++
        (if axle_valid then [] else
          [axleOverloadMessage (axle_load - MAX_AXLE_WEIGHT_TRAILER_KG * 3)]) ++
        (if kingpin_valid && axle_valid then
          ["Load distribution is within legal limits"] else []) }

/-- `AxleConfig` dataclass (`axle_distribution.py`), with its default values. -/
structure AxleConfig where
  kingpin_position_m : ℚ
  trailer_length_m : ℚ
  axle_group_position_m : ℚ
  num_trailer_axles : ℕ
  max_kingpin_load_kg : ℚ
  max_per_axle_load_kg : ℚ
deriving DecidableEq, Repr

/-- The default `AxleConfig()`. -/
def defaultAxleConfig : AxleConfig :=
  { kingpin_position_m := KINGPIN_POSITION_M
    trailer_length_m := 13.6
    axle_group_position_m := 12.1
    num_trailer_axles := 3
    max_kingpin_load_kg := MAX_AXLE_WEIGHT_MOTOR_KG
    max_per_axle_load_kg := MAX_AXLE_WEIGHT_TRAILER_KG }

/-- `AxleDistribution` dataclass (`axle_distribution.py`). -/
structure AxleDistribution where
  kingpin_load_kg : ℚ
  axle_group_load_kg : ℚ
  per_axle_load_kg : ℚ
  kingpin_utilization_pct : ℚ
  axle_utilization_pct : ℚ
  is_valid : Bool
  violation_message : Option String
deriving DecidableEq, Repr

/-- `calculate_axle_distribution(total_cargo_weight_kg, center_of_gravity_m,
config)`.  Overload amounts inside violation messages are `:.0f`-formatted;
they are rendered via `pyRound0` here. -/
def calculate_axle_distribution (total_cargo_weight_kg center_of_gravity_m : ℚ)
    (config : AxleConfig) : AxleDistribution :=
  let cog_to_kingpin := center_of_gravity_m - config.kingpin_position_m
  let axle_to_kingpin := config.axle_group_position_m - config.kingpin_position_m
  if axle_to_kingpin ≤ 0 then
    { kingpin_load_kg := total_cargo_weight_kg
      axle_group_load_kg := 0
      per_axle_load_kg := 0
      kingpin_utilization_pct := 100
      axle_utilization_pct := 0
      is_valid := false
      violation_message := some "Invalid axle configuration" }
  else
    let axle_group_load := total_cargo_weight_kg * cog_to_kingpin / axle_to_kingpin
    let kingpin_load := total_cargo_weight_kg - axle_group_load
    let per_axle_load := axle_group_load / (config.num_trailer_axles : ℚ)
    let kingpin_util := kingpin_load / config.max_kingpin_load_kg * 100
    let max_axle_group := config.max_per_axle_load_kg * (config.num_trailer_axles : ℚ)
    let axle_util := axle_group_load / max_axle_group * 100
    let violations : List String :=
      (if kingpin_load > config.max_kingpin_load_kg then
        ["Kingpin overload by " ++
          toString (pyRound0 (kingpin_load - config.max_kingpin_load_kg)).num ++ " kg"]
       else []) ++
      (if axle_group_load > max_axle_group then
        ["Axle group overload by " ++
          toString (pyRound0 (axle_group_load - max_axle_group)).num ++ " kg"]
       else []) ++
      (if per_axle_load > config.max_per_axle_load_kg then
        ["Per-axle overload by " ++
          toString (pyRound0 (per_axle_load - config.max_per_axle_load_kg)).num ++ " kg"]
       else [])
    { kingpin_load_kg := pyRound kingpin_load 0
      axle_group_load_kg := pyRound axle_group_load 0
      per_axle_load_kg := pyRound per_axle_load 0
      kingpin_utilization_pct := pyRound kingpin_util 1
      axle_utilization_pct := pyRound axle_util 1
      is_valid := violations.isEmpty
      violation_message :=
        if violations.isEmpty then none else some (String.intercalate "; " violations) }

/-! ## Derived observation helpers and concrete inputs used by the theorems -/

/-- The pipes recoverable from a `PackingResult`: flatten every bundle of every
truck. -/
def flattenResultPipes (r : PackingResult) : List Pipe :=
  (r.trucks.map (fun t => NestedPipe.getAllPipesList t.bundles)).flatten

/-- A truck configuration with the code's default values
(`max_payload_kg=24000`, `internal_height_mm=2700`, `internal_width_mm=2480`,
`pipe_length_m=12.0`). -/
def defaultTruckConfig : TruckConfig :=
  { max_payload_kg := 24000, internal_height_mm := 2700,
    internal_width_mm := 2480, pipe_length_m := 12 }

/-- A single pipe weighing 2500 kg/m — 30 000 kg at 12 m, more than a whole
truck's payload. -/
def overweightPipe : Pipe :=
  { code := "TPE-OVER", dn_mm := 110, inner_diameter_mm := 90,
    weight_per_meter := 2500 }

/-- A test pipe of diameter 110 mm (too small for any nesting) with the given
index and weight per meter. -/
def probePipe (i : Nat) (w : ℚ) : Pipe :=
  { code := "T" ++ toString i, dn_mm := 110, inner_diameter_mm := 90,
    weight_per_meter := w }

/-- A light DN400 host pipe (10 kg/m). -/
def lightHostPipe : Pipe :=
  { code := "H", dn_mm := 400, inner_diameter_mm := 369.4, weight_per_meter := 10 }

/-- A heavy DN315 guest pipe (100 kg/m), geometrically compatible with
`lightHostPipe` but 10× heavier. -/
def heavyGuestPipe : Pipe :=
  { code := "G", dn_mm := 315, inner_diameter_mm := 300, weight_per_meter := 100 }

/-- Ten pipes whose weights (kg/m) pack into 4 trucks of 24 000 kg at 12 m
under the truck-count-first greedy search. -/
def anomalyPipesBefore : List Pipe :=
  [probePipe 0 1040, probePipe 1 820, probePipe 2 640, probePipe 3 560,
   probePipe 4 540, probePipe 5 520, probePipe 6 500, probePipe 7 440,
   probePipe 8 280, probePipe 9 280]

/-- The same ten pipes with the second one's weight raised from 820 to
1040 kg/m. -/
def anomalyPipesAfter : List Pipe :=
  anomalyPipesBefore.set 1 (probePipe 1 1040)

/-- Proof-side predicate: every bundle on the truck has nonnegative weight and
the truck is within its payload. -/
def GoodTruck (cfg : TruckConfig) (t : TruckLoad) : Prop :=
  (∀ b ∈ t.bundles, 0 ≤ b.calculate_bundle_weight cfg.pipe_length_m) ∧
  t.total_weight_kg cfg ≤ cfg.max_payload_kg

/-! # Theorems -/

/-! ## Basic lemmas about the nesting loops -/

theorem removeFirstByCode_length_le (c : String) (l : List Pipe) :
    (removeFirstByCode c l).length ≤ l.length := by
  induction l with
  | nil => simp [removeFirstByCode]
  | cons p rest ih =>
      simp only [removeFirstByCode]
      split
      · simp
      · simpa using Nat.succ_le_succ ih

theorem nestPipeAux_length_le (fuel : Nat) :
    ∀ (host : NestedPipe) (available : List Pipe) (ml cl : Nat) (pl : Bool),
      (nestPipeAux fuel host available ml cl pl).2.length ≤ available.length := by
  induction fuel with
  | zero =>
      intro host available ml cl pl
      rw [nestPipeAux]
      split
      · simp
      · simp
  | succ n ih =>
      intro host available ml cl pl
      rw [nestPipeAux]
      split
      · simp
      · split
        · simp
        · split
          · simp
          · split
            · simp
            · rename_i best_fit hsel
              calc (nestPipeAux n (NestedPipe.mk best_fit [] cl)
                      (removeFirstByCode best_fit.code available) ml (cl + 1) pl).2.length
                  ≤ (removeFirstByCode best_fit.code available).length := ih _ _ _ _ _
                _ ≤ available.length := removeFirstByCode_length_le _ _

theorem nest_pipe_recursive_length_le (host : NestedPipe) (available : List Pipe)
    (ml cl : Nat) (pl : Bool) :
    (nest_pipe_recursive host available ml cl pl).2.length ≤ available.length :=
  nestPipeAux_length_le (ml - cl) host available ml cl pl

/-! ## C5 — gap clearance validation -/

/-- C5: `validate_nesting_compatibility` returns
`available_gap = (bore − 0.04·host_outer  if ovality else bore) − guest_outer`
and `required_gap = 15.0 + 0.015·host_outer`, and is valid iff
`available_gap ≥ required_gap`; in particular a DN400 host (bore 369.4 mm)
accepts a 315 mm guest without ovality (gap 54.4 ≥ 21) and rejects a 355 mm
guest (gap 14.4 < 21). -/
theorem claim_C5_gap_clearance (bore host_outer guest : ℚ) (ov : Bool) :
    (validate_nesting_compatibility bore host_outer guest ov).available_gap_mm =
      (if ov then bore - 0.04 * host_outer else bore) - guest ∧
    (validate_nesting_compatibility bore host_outer guest ov).required_gap_mm =
      15.0 + 0.015 * host_outer ∧
    ((validate_nesting_compatibility bore host_outer guest ov).is_valid = true ↔
      (if ov then bore - 0.04 * host_outer else bore) - guest ≥
        15.0 + 0.015 * host_outer) ∧
    (validate_nesting_compatibility 369.4 400 315 false).available_gap_mm = 54.4 ∧
    (validate_nesting_compatibility 369.4 400 315 false).required_gap_mm = 21 ∧
    (validate_nesting_compatibility 369.4 400 315 false).is_valid = true ∧
    (validate_nesting_compatibility 369.4 400 355 false).available_gap_mm = 14.4 ∧
    (validate_nesting_compatibility 369.4 400 355 false).is_valid = false := by
  refine ⟨?_, ?_, ?_, ?_, ?_, ?_, ?_, ?_⟩
  · cases ov <;>
      simp [validate_nesting_compatibility, calculate_effective_inner_diameter,
        OVALITY_FACTOR, mul_comm]
  · simp [validate_nesting_compatibility, calculate_minimum_gap,
      BASE_CLEARANCE_MM, DIAMETER_FACTOR]
  · cases ov <;>
      simp [validate_nesting_compatibility, calculate_effective_inner_diameter,
        calculate_minimum_gap, OVALITY_FACTOR, BASE_CLEARANCE_MM, DIAMETER_FACTOR,
        decide_eq_true_iff, ge_iff_le, mul_comm]
  · with_unfolding_all rfl
  · with_unfolding_all rfl
  · with_unfolding_all rfl
  · with_unfolding_all rfl
  · with_unfolding_all rfl

/-! ## C3 — the intended-ceiling slip in `pack_pipes_into_trucks` -/

/-- C3: the claim says `min_trucks = ceil(total_weight / max_payload)`, and the
code comment `# Ceiling` shows the same intent, but
`max(1, int(total/max_payload + 0.99))` is not a ceiling: at total weight
48 024 kg and payload 24 000 kg (ratio 2.001) the code computes 2, one truck
short of the true ceiling 3 — two such trucks cannot even carry the weight. -/
theorem claim_C3_min_trucks_not_ceiling :
    min_trucks_by_weight 48024 24000 = 2 ∧
    (2 : ℚ) * 24000 < 48024 ∧
    ⌈(48024 : ℚ) / 24000⌉ = 3 := by
  refine ⟨by with_unfolding_all rfl, by norm_num, ?_⟩
  rw [show (48024 : ℚ) / 24000 = 2001 / 1000 by norm_num]
  rw [Int.ceil_eq_iff]
  norm_num

/-! ## C8 — axle-load moment balance -/

/-- C8: for axle-group position beyond the kingpin, `calculate_axle_loads`
returns `axle_group_load = W·(c−k)/(a−k)` and `kingpin_load = W − axle_group_load`;
at W = 20 000 kg, CoG 6.5 m, kingpin 1.5 m and axle group 12.1 m (the default
for a 13.6 m trailer) the loads are ≈ 9434 kg and ≈ 10 566 kg and both limits
hold. -/
theorem claim_C8_axle_loads (W c L k a : ℚ) (h : k < a) :
    (calculate_axle_loads W c L k (some a)).axle_group_load_kg =
      W * (c - k) / (a - k) ∧
    (calculate_axle_loads W c L k (some a)).kingpin_load_kg =
      W - W * (c - k) / (a - k) ∧
    (calculate_axle_loads 20000 6.5 13.6 1.5 none).axle_group_load_kg =
      20000 * 5.0 / 10.6 ∧
    |(calculate_axle_loads 20000 6.5 13.6 1.5 none).axle_group_load_kg - 9434| < 1 ∧
    |(calculate_axle_loads 20000 6.5 13.6 1.5 none).kingpin_load_kg - 10566| < 1 ∧
    (calculate_axle_loads 20000 6.5 13.6 1.5 none).kingpin_valid = true ∧
    (calculate_axle_loads 20000 6.5 13.6 1.5 none).axle_valid = true ∧
    (calculate_axle_loads 20000 6.5 13.6 1.5 none).total_valid = true := by
  have hne : ¬(a - k ≤ 0) := by
    simp only [not_le, sub_pos]
    exact h
  refine ⟨?_, ?_, ?_, ?_, ?_, ?_, ?_, ?_⟩
  · simp [calculate_axle_loads, hne]
  · simp [calculate_axle_loads, hne]
  · with_unfolding_all rfl
  · with_unfolding_all decide
  · with_unfolding_all decide
  · with_unfolding_all rfl
  · with_unfolding_all rfl
  · with_unfolding_all rfl

/-- Witness for C8 at the spec's own scenario (kingpin 1.5 m < axle 12.1 m). -/
theorem claim_C8_axle_loads_witness :
    (calculate_axle_loads 20000 6.5 13.6 1.5 (some 12.1)).axle_group_load_kg =
      20000 * (6.5 - 1.5) / (12.1 - 1.5) :=
  (claim_C8_axle_loads 20000 6.5 13.6 1.5 12.1
    (of_decide_eq_true (by with_unfolding_all rfl))).1

/-! ## C9 — degenerate axle geometry is flagged, not a division error -/

/-- C9: whenever the axle group is not behind the kingpin, both axle
calculators return the whole load at the kingpin with the validity flag false
and the message `Invalid axle configuration`, instead of dividing by the zero
(or negative) lever arm. -/
theorem claim_C9_degenerate_axle (W c L k a : ℚ) (h : a ≤ k) (config : AxleConfig)
    (hcfg : config.axle_group_position_m ≤ config.kingpin_position_m) :
    calculate_axle_loads W c L k (some a) =
      { kingpin_load_kg := W, axle_group_load_kg := 0, kingpin_valid := false,
        axle_valid := true, total_valid := false,
        messages := ["Invalid axle configuration"] } ∧
    calculate_axle_distribution W c config =
      { kingpin_load_kg := W, axle_group_load_kg := 0, per_axle_load_kg := 0,
        kingpin_utilization_pct := 100, axle_utilization_pct := 0,
        is_valid := false,
        violation_message := some "Invalid axle configuration" } := by
  constructor
  · have hle : a - k ≤ 0 := by simpa using sub_nonpos.mpr h
    simp [calculate_axle_loads, hle]
  · have hle : config.axle_group_position_m - config.kingpin_position_m ≤ 0 :=
      sub_nonpos.mpr hcfg
    simp [calculate_axle_distribution, hle]

/-- Witness for C9: axle group at 1.0 m is ahead of the kingpin at 1.5 m. -/
theorem claim_C9_degenerate_axle_witness :
    calculate_axle_loads 20000 6.5 13.6 1.5 (some 1.0) =
      { kingpin_load_kg := 20000, axle_group_load_kg := 0, kingpin_valid := false,
        axle_valid := true, total_valid := false,
        messages := ["Invalid axle configuration"] } :=
  (claim_C9_degenerate_axle 20000 6.5 13.6 1.5 1.0
    (of_decide_eq_true (by with_unfolding_all rfl))
    { defaultAxleConfig with axle_group_position_m := 1.0 }
    (of_decide_eq_true (by with_unfolding_all rfl))).1

/-! ## C1 — pipe conservation fails: `first_fit_decreasing` silently drops a
bundle that does not fit an empty truck -/

/-- C1: conservation is violated.  A single 30 000-kg pipe (2500 kg/m at 12 m)
exceeds the 24 000-kg payload of an empty truck, so
`new_truck.add_bundle(bundle)` — whose return value `first_fit_decreasing`
ignores — fails, and the run (here reached through the Strategy-B fallback of
`pack_pipes_into_trucks`, which also fails every n) returns one truck with no
bundles: the input pipe is dropped from the result. -/
theorem claim_C1_conservation_dropped_pipe :
    flattenResultPipes
      (pack_pipes_into_trucks [overweightPipe] defaultTruckConfig true
        DEFAULT_MAX_NESTING_LEVELS) = [] ∧
    (pack_pipes_into_trucks [overweightPipe] defaultTruckConfig true
        DEFAULT_MAX_NESTING_LEVELS).total_trucks_needed = 1 ∧
    flattenResultPipes
      (first_fit_decreasing [NestedPipe.mk overweightPipe [] 0] defaultTruckConfig)
      = [] ∧
    ([overweightPipe] : List Pipe) ≠ [] := by
  refine ⟨?_, ?_, ?_, ?_⟩
  · with_unfolding_all rfl
  · with_unfolding_all rfl
  · with_unfolding_all rfl
  · simp

/-! ## C4 — trucks-needed is not monotone in a single pipe's weight -/

/-- Counterexample to C4: raising the second pipe's weight-per-meter from 820
to 1040 kg/m (everything else fixed) drops the reported trucks-needed from 4
to 3 — a classical first-fit-decreasing anomaly: the heavier sorted order
packs into 3 trucks of 24 000 kg while the original order does not. -/
theorem claim_C4_counterexample :
    (pack_pipes_into_trucks anomalyPipesBefore defaultTruckConfig true
        DEFAULT_MAX_NESTING_LEVELS).total_trucks_needed = 4 ∧
    (pack_pipes_into_trucks anomalyPipesAfter defaultTruckConfig true
        DEFAULT_MAX_NESTING_LEVELS).total_trucks_needed = 3 ∧
    anomalyPipesBefore[1]? = some (probePipe 1 820) ∧
    anomalyPipesAfter = anomalyPipesBefore.set 1 (probePipe 1 1040) ∧
    probePipe 1 1040 =
      { probePipe 1 820 with weight_per_meter := 1040 } ∧
    (820 : ℚ) < 1040 := by
  refine ⟨?_, ?_, ?_, rfl, ?_, ?_⟩
  · with_unfolding_all rfl
  · with_unfolding_all rfl
  · with_unfolding_all rfl
  · with_unfolding_all rfl
  · with_unfolding_all decide

theorem total_pipe_weight_set_mono (len : ℚ) (hlen : 0 ≤ len) :
    ∀ (pipes : List Pipe) (i : Nat) (p p' : Pipe), pipes[i]? = some p →
      p.weight_per_meter ≤ p'.weight_per_meter →
      total_pipe_weight pipes len ≤ total_pipe_weight (pipes.set i p') len := by
  intro pipes
  induction pipes with
  | nil => intro i p p' hp; simp at hp
  | cons q rest ih =>
      intro i p p' hp hw
      cases i with
      | zero =>
          simp only [List.getElem?_cons_zero, Option.some.injEq] at hp
          subst hp
          simp only [List.set_cons_zero, total_pipe_weight, List.map_cons, List.sum_cons]
          have hm := mul_le_mul_of_nonneg_right hw hlen
          linarith
      | succ n =>
          simp only [List.getElem?_cons_succ] at hp
          simp only [List.set_cons_succ, total_pipe_weight, List.map_cons, List.sum_cons]
          have := ih n p p' hp hw
          simp only [total_pipe_weight] at this
          linarith

theorem pyInt_mono {q r : ℚ} (h : q ≤ r) : pyInt q ≤ pyInt r := by
  unfold pyInt
  by_cases hq : 0 ≤ q
  · have hr : 0 ≤ r := le_trans hq h
    simp only [if_pos hq, if_pos hr]
    exact Int.floor_le_floor h
  · by_cases hr : 0 ≤ r
    · simp only [if_neg hq, if_pos hr]
      calc ⌈q⌉ ≤ 0 := Int.ceil_le.mpr (by exact_mod_cast le_of_lt (not_le.mp hq))
        _ ≤ ⌊r⌋ := Int.le_floor.mpr (by exact_mod_cast hr)
    · simp only [if_neg hq, if_neg hr]
      exact Int.ceil_le_ceil h

theorem min_trucks_by_weight_mono (t t' cap : ℚ) (hcap : 0 < cap) (h : t ≤ t') :
    min_trucks_by_weight t cap ≤ min_trucks_by_weight t' cap := by
  unfold min_trucks_by_weight
  have hdiv : t / cap + 0.99 ≤ t' / cap + 0.99 :=
    add_le_add_right ((div_le_div_iff_of_pos_right hcap).mpr h) _
  exact max_le_max (Nat.le_refl 1) (Int.toNat_le_toNat (pyInt_mono hdiv))

/-- C4, amended: raising one pipe's weight-per-meter never decreases the
weight-based minimum-truck bound `min_trucks_by_weight` that
`pack_pipes_into_trucks` computes (the start of its search range); the final
`total_trucks_needed` itself is *not* monotone (see the counterexample). -/
theorem claim_C4_amended (pipes : List Pipe) (i : Nat) (p : Pipe) (w' : ℚ)
    (cfg : TruckConfig) (hp : pipes[i]? = some p) (hw : p.weight_per_meter ≤ w')
    (hlen : 0 ≤ cfg.pipe_length_m) (hcap : 0 < cfg.max_payload_kg) :
    min_trucks_by_weight (total_pipe_weight pipes cfg.pipe_length_m)
        cfg.max_payload_kg ≤
      min_trucks_by_weight
        (total_pipe_weight (pipes.set i { p with weight_per_meter := w' })
          cfg.pipe_length_m) cfg.max_payload_kg :=
  min_trucks_by_weight_mono _ _ _ hcap
    (total_pipe_weight_set_mono cfg.pipe_length_m hlen pipes i p _ hp hw)

/-- Witness for the amended C4 at the counterexample's own input. -/
theorem claim_C4_amended_witness :
    min_trucks_by_weight (total_pipe_weight anomalyPipesBefore
        defaultTruckConfig.pipe_length_m) defaultTruckConfig.max_payload_kg ≤
      min_trucks_by_weight
        (total_pipe_weight (anomalyPipesBefore.set 1
            { probePipe 1 820 with weight_per_meter := 1040 })
          defaultTruckConfig.pipe_length_m) defaultTruckConfig.max_payload_kg :=
  claim_C4_amended anomalyPipesBefore 1 (probePipe 1 820) 1040 defaultTruckConfig
    (by with_unfolding_all rfl)
    (of_decide_eq_true (by with_unfolding_all rfl))
    (of_decide_eq_true (by with_unfolding_all rfl))
    (of_decide_eq_true (by with_unfolding_all rfl))

/-! ## C10 — the mixed-stack height estimate dominates the largest diameter -/

instance : IsTotal ℚ (fun a b : ℚ => b ≤ a) := ⟨fun a b => le_total b a⟩

instance : IsTrans ℚ (fun a b : ℚ => b ≤ a) := ⟨fun _ _ _ h1 h2 => le_trans h2 h1⟩

theorem sqrt3_over_2_nonneg : (0 : ℚ) ≤ SQRT3_OVER_2 :=
  of_decide_eq_true (by with_unfolding_all rfl)

theorem stackRows_headD_ge (w g : ℚ) :
    ∀ (ds : List ℚ) (cz rm : ℚ), 0 < rm →
      rm ≤ (stackRows w g ds cz rm).headD 0 ∧ stackRows w g ds cz rm ≠ [] := by
  intro ds
  induction ds with
  | nil =>
      intro cz rm h
      simp [stackRows, if_pos h]
  | cons d ds ih =>
      intro cz rm h
      simp only [stackRows]
      by_cases hcond : w < cz + d
      · rw [if_pos hcond, if_pos h]
        simp
      · rw [if_neg hcond]
        have hmax : 0 < max rm d := lt_of_lt_of_le h (le_max_left _ _)
        have := ih (cz + d + g) (max rm d) hmax
        exact ⟨le_trans (le_max_left rm d) this.1, this.2⟩

theorem stackRows_mem_nonneg (w g : ℚ) :
    ∀ (ds : List ℚ) (cz rm : ℚ), (∀ d ∈ ds, 0 ≤ d) → 0 ≤ rm →
      ∀ r ∈ stackRows w g ds cz rm, 0 ≤ r := by
  intro ds
  induction ds with
  | nil =>
      intro cz rm _ hrm r hr
      simp only [stackRows] at hr
      split at hr
      · simp at hr
        exact hr ▸ hrm
      · simp at hr
  | cons d ds ih =>
      intro cz rm hds hrm r hr
      have hd : 0 ≤ d := hds d (by simp)
      have hds' : ∀ x ∈ ds, 0 ≤ x := fun x hx => hds x (by simp [hx])
      simp only [stackRows] at hr
      split at hr
      · split at hr
        · rcases List.mem_cons.mp hr with rfl | hr'
          · assumption
          · exact ih (d + g) d hds' hd r hr'
        · exact ih (d + g) d hds' hd r hr
      · exact ih (cz + d + g) (max rm d) hds' (le_trans hrm (le_max_left _ _)) r hr

theorem hexExtraHeights_nonneg :
    ∀ (rs : List ℚ) (prev : ℚ), 0 ≤ prev → (∀ r ∈ rs, 0 ≤ r) →
      0 ≤ hexExtraHeights prev rs := by
  intro rs
  induction rs with
  | nil => intro prev _ _; simp [hexExtraHeights]
  | cons r rs ih =>
      intro prev hprev hrs
      have hr : 0 ≤ r := hrs r (by simp)
      simp only [hexExtraHeights]
      have h1 : 0 ≤ (prev + r) / 2 * SQRT3_OVER_2 :=
        mul_nonneg (by linarith) sqrt3_over_2_nonneg
      have h2 := ih r hr (fun x hx => hrs x (by simp [hx]))
      linarith

theorem estimate_mixed_stack_height_ge (diameters : List ℚ) (width gap : ℚ)
    (hpos : ∀ d ∈ diameters, 0 < d) :
    ∀ d ∈ diameters, d ≤ estimate_mixed_stack_height diameters width gap := by
  intro d hd
  have hne : diameters ≠ [] := by rintro rfl; simp at hd
  simp only [estimate_mixed_stack_height, List.isEmpty_eq_true, if_neg hne]
  have hperm : List.Perm (diameters.insertionSort (fun a b : ℚ => b ≤ a)) diameters :=
    List.perm_insertionSort _ _
  have hsortedProp :
      (diameters.insertionSort (fun a b : ℚ => b ≤ a)).Sorted (fun a b : ℚ => b ≤ a) :=
    List.sorted_insertionSort _ _
  have hdmem : d ∈ diameters.insertionSort (fun a b : ℚ => b ≤ a) :=
    hperm.mem_iff.mpr hd
  cases hs : diameters.insertionSort (fun a b : ℚ => b ≤ a) with
  | nil => rw [hs] at hdmem; simp at hdmem
  | cons s0 rest =>
      rw [hs] at hdmem hsortedProp hperm
      have hd_le : d ≤ s0 := by
        rcases List.mem_cons.mp hdmem with rfl | hmem
        · exact le_refl d
        · exact (List.sorted_cons.mp hsortedProp).1 d hmem
      have hs0pos : 0 < s0 := hpos s0 (hperm.mem_iff.mp (by simp))
      have hrestpos : ∀ x ∈ rest, 0 ≤ x := fun x hx =>
        le_of_lt (hpos x (hperm.mem_iff.mp (by simp [hx])))
      -- one unfolding step of the row loop on the first (largest) diameter
      have hrows : stackRows width gap (s0 :: rest) 0 0 =
          stackRows width gap rest (s0 + gap) s0 := by
        simp only [stackRows]
        split
        · rw [if_neg (lt_irrefl 0)]
        · rw [zero_add]
          rw [max_eq_right (le_of_lt hs0pos)]
      have hhead := stackRows_headD_ge width gap rest (s0 + gap) s0 hs0pos
      have hallnn := stackRows_mem_nonneg width gap rest (s0 + gap) s0 hrestpos
        (le_of_lt hs0pos)
      rw [hrows]
      cases hrows2 : stackRows width gap rest (s0 + gap) s0 with
      | nil => exact absurd hrows2 hhead.2
      | cons r0 rs =>
          have hr0 : s0 ≤ r0 := by
            have := hhead.1
            rw [hrows2] at this
            simpa using this
          have hrsnn : ∀ x ∈ rs, 0 ≤ x := fun x hx => by
            have := hallnn x (by rw [hrows2]; simp [hx])
            exact this
          have hr0nn : 0 ≤ r0 := le_trans (le_of_lt hs0pos) hr0
          have hextra := hexExtraHeights_nonneg rs r0 hr0nn hrsnn
          calc d ≤ s0 := hd_le
            _ ≤ r0 := hr0
            _ ≤ r0 + hexExtraHeights r0 rs := by linarith

/-- C10: for positive diameters, `estimate_mixed_stack_height` is at least the
largest diameter in the list (and exactly `0.0` on an empty list), so
`_can_fit_spatially` always rejects a bundle whose outer diameter exceeds the
truck's internal height. -/
theorem claim_C10_stack_height (diameters : List ℚ) (width gap : ℚ)
    (hpos : ∀ d ∈ diameters, 0 < d) :
    (∀ d ∈ diameters, d ≤ estimate_mixed_stack_height diameters width gap) ∧
    estimate_mixed_stack_height ([] : List ℚ) width gap = 0 ∧
    (∀ (cfg : TruckConfig) (t : TruckLoad) (b : NestedPipe),
      (∀ x ∈ t.bundles, 0 < x.outer_diameter) → 0 < b.outer_diameter →
      t.can_fit_spatially cfg b = true →
      b.outer_diameter ≤ cfg.internal_height_mm) := by
  refine ⟨estimate_mixed_stack_height_ge diameters width gap hpos, rfl, ?_⟩
  intro cfg t b ht hb hfit
  have hall : ∀ d ∈ t.bundles.map NestedPipe.outer_diameter ++ [b.outer_diameter],
      0 < d := by
    intro d hd
    rcases List.mem_append.mp hd with hd' | hd'
    · obtain ⟨x, hx, rfl⟩ := List.mem_map.mp hd'
      exact ht x hx
    · simp at hd'
      exact hd' ▸ hb
  have hest := estimate_mixed_stack_height_ge _ cfg.internal_width_mm 20.0 hall
    b.outer_diameter (by simp)
  have hle : estimate_mixed_stack_height
      (t.bundles.map NestedPipe.outer_diameter ++ [b.outer_diameter])
      cfg.internal_width_mm 20.0 ≤ cfg.internal_height_mm := by
    have := of_decide_eq_true hfit
    exact this
  exact le_trans hest hle

/-- Witness for C10 at two concrete diameters. -/
theorem claim_C10_stack_height_witness :
    (250 : ℚ) ≤ estimate_mixed_stack_height [110, 250] 2480 20 :=
  (claim_C10_stack_height [110, 250] 2480 20
    (of_decide_eq_true (by with_unfolding_all rfl))).1 250 (by simp)

/-! ## C7 — nesting depth never exceeds `max_levels` -/

theorem NestedPipe.levelsList_append : ∀ xs ys : List NestedPipe,
    NestedPipe.levelsList (xs ++ ys) =
      NestedPipe.levelsList xs ++ NestedPipe.levelsList ys := by
  intro xs ys
  induction xs with
  | nil => simp [NestedPipe.levelsList]
  | cons c cs ih => simp [NestedPipe.levelsList, ih]

theorem NestedPipe.total_mk_nil (p : Pipe) (l : Nat) :
    (NestedPipe.mk p [] l).total_nesting_levels = 1 := rfl

theorem natMax_eq_max (a b : Nat) : Nat.max a b = max a b := rfl

theorem NestedPipe.appendChild_levels (host c : NestedPipe) :
    (host.appendChild c).total_nesting_levels =
      Nat.max host.total_nesting_levels (1 + c.total_nesting_levels) := by
  cases host with
  | mk p cs l =>
      cases cs with
      | nil =>
          simp only [NestedPipe.appendChild, NestedPipe.pipe_data,
            NestedPipe.nested_pipes, List.nil_append,
            NestedPipe.total_nesting_levels, NestedPipe.levelsList, List.foldl_nil]
          simp only [natMax_eq_max]
          omega
      | cons c' cs' =>
          simp only [NestedPipe.appendChild, NestedPipe.pipe_data,
            NestedPipe.nested_pipes, List.cons_append,
            NestedPipe.total_nesting_levels, NestedPipe.levelsList,
            NestedPipe.levelsList_append, List.foldl_append, List.foldl_cons,
            List.foldl_nil]
          simp only [natMax_eq_max]
          omega

theorem nestPipeAux_levels (fuel : Nat) :
    ∀ (host : NestedPipe) (avail : List Pipe) (ml cl : Nat) (pl : Bool),
      (nestPipeAux fuel host avail ml cl pl).1.total_nesting_levels ≤
        Nat.max host.total_nesting_levels (1 + fuel) := by
  induction fuel with
  | zero =>
      intro host avail ml cl pl
      rw [nestPipeAux]
      split
      · exact Nat.le_max_left _ _
      · exact Nat.le_max_left _ _
  | succ n ih =>
      intro host avail ml cl pl
      rw [nestPipeAux]
      split
      · exact Nat.le_max_left _ _
      · split
        · exact Nat.le_max_left _ _
        · split
          · exact Nat.le_max_left _ _
          · split
            · exact Nat.le_max_left _ _
            · rename_i best_fit hsel
              have hc := ih (NestedPipe.mk best_fit [] cl)
                (removeFirstByCode best_fit.code avail) ml (cl + 1) pl
              rw [NestedPipe.total_mk_nil] at hc
              show (host.appendChild _).total_nesting_levels ≤ _
              rw [NestedPipe.appendChild_levels]
              simp only [natMax_eq_max] at hc ⊢
              omega

theorem createBundlesLoopAux_levels (ml : Nat) (pl : Bool) (hml : 1 ≤ ml) :
    ∀ (fuel : Nat) (l : List Pipe) (b : NestedPipe),
      b ∈ createBundlesLoopAux ml pl fuel l → b.total_nesting_levels ≤ ml := by
  intro fuel
  induction fuel with
  | zero =>
      intro l b hb
      cases l <;> simp [createBundlesLoopAux] at hb
  | succ n ih =>
      intro l b hb
      cases l with
      | nil => simp [createBundlesLoopAux] at hb
      | cons hd rest =>
          simp only [createBundlesLoopAux, List.mem_cons] at hb
          rcases hb with rfl | hb'
          · have := nestPipeAux_levels (ml - 1) (NestedPipe.mk hd [] 0) rest ml 1 pl
            rw [NestedPipe.total_mk_nil] at this
            simp only [nest_pipe_recursive]
            simp only [natMax_eq_max] at this
            omega
          · exact ih _ _ hb'

/-- C7: every bundle built by `create_nested_bundles` has
`total_nesting_levels ≤ max_levels` (for any positive level budget), and the
engine's level constants are `max_nesting_levels = 4` by default
(`pack_pipes_into_trucks`) under the module ceiling `MAX_NESTING_LEVELS = 10`
(the default of `create_nested_bundles` itself). -/
theorem claim_C7_nesting_depth (pipes : List Pipe) (len : ℚ) (ml : Nat) (pl : Bool)
    (hml : 1 ≤ ml) :
    (∀ b ∈ (create_nested_bundles pipes len ml pl).bundles,
        b.total_nesting_levels ≤ ml) ∧
    MAX_NESTING_LEVELS = 10 ∧ DEFAULT_MAX_NESTING_LEVELS = 4 := by
  refine ⟨?_, rfl, rfl⟩
  intro b hb
  by_cases hp : pipes.isEmpty
  · simp [create_nested_bundles, hp] at hb
  · simp only [create_nested_bundles, hp, Bool.false_eq_true, if_false,
      createBundlesLoop] at hb
    exact createBundlesLoopAux_levels ml pl hml _ _ b hb

/-- Witness for C7: the one bundle built from a single pipe at level budget 4
has depth at most 4. -/
theorem claim_C7_nesting_depth_witness :
    (NestedPipe.mk (probePipe 0 100) [] 0).total_nesting_levels ≤ 4 :=
  (claim_C7_nesting_depth [probePipe 0 100] 12 4 true (by decide)).1
    (NestedPipe.mk (probePipe 0 100) [] 0)
    (of_decide_eq_true (by with_unfolding_all rfl))

/-! ## C6 — the `prefer_lighter` best-fit selection -/

theorem mem_find_compatible_pipes (hi ho : ℚ) (cands : List Pipe) (ov : Bool)
    (p : Pipe) :
    p ∈ find_compatible_pipes hi ho cands ov ↔
      p ∈ cands ∧ p.dn_mm < ho ∧
        (validate_nesting_compatibility hi ho p.dn_mm ov).is_valid = true := by
  unfold find_compatible_pipes
  rw [(List.perm_insertionSort _ _).mem_iff]
  simp [List.mem_filter, Bool.and_eq_true, decide_eq_true_iff, and_assoc]

theorem bestFit_fold_inv (hw : ℚ) :
    ∀ (l seen : List Pipe) (acc : Option Pipe),
      (match acc with
       | none => ∀ q ∈ seen, hw * 1.5 < q.weight_per_meter
       | some b => b ∈ seen ∧ b.weight_per_meter ≤ hw * 1.5 ∧
           ∀ q ∈ seen, q.weight_per_meter ≤ hw * 1.5 → q.dn_mm ≤ b.dn_mm) →
      (match l.foldl (bestFitStep true hw) acc with
       | none => ∀ q ∈ seen ++ l, hw * 1.5 < q.weight_per_meter
       | some b => b ∈ seen ++ l ∧ b.weight_per_meter ≤ hw * 1.5 ∧
           ∀ q ∈ seen ++ l, q.weight_per_meter ≤ hw * 1.5 → q.dn_mm ≤ b.dn_mm) := by
  intro l
  induction l with
  | nil => intro seen acc h; simpa using h
  | cons p l ih =>
      intro seen acc h
      have hstep :
          (match bestFitStep true hw acc p with
           | none => ∀ q ∈ seen ++ [p], hw * 1.5 < q.weight_per_meter
           | some b => b ∈ seen ++ [p] ∧ b.weight_per_meter ≤ hw * 1.5 ∧
               ∀ q ∈ seen ++ [p], q.weight_per_meter ≤ hw * 1.5 →
                 q.dn_mm ≤ b.dn_mm) := by
        cases acc with
        | none =>
            simp only [bestFitStep, Bool.true_and]
            by_cases hX : p.weight_per_meter > hw * 1.5
            · rw [if_pos (by simpa using hX)]
              intro q hq
              rcases List.mem_append.mp hq with hq' | hq'
              · exact h q hq'
              · simp at hq'
                exact hq' ▸ hX
            · rw [if_neg (by simpa using hX)]
              refine ⟨by simp, not_lt.mp hX, ?_⟩
              intro q hq hql
              rcases List.mem_append.mp hq with hq' | hq'
              · exact absurd hql (not_le.mpr (h q hq'))
              · simp at hq'
                exact hq' ▸ le_refl _
        | some b =>
            obtain ⟨hbmem, hble, hbmax⟩ := h
            simp only [bestFitStep, Bool.true_and]
            by_cases hdn : p.dn_mm > b.dn_mm
            · rw [if_pos hdn]
              by_cases hX : p.weight_per_meter > hw * 1.5
              · rw [if_pos (by simpa using hX)]
                refine ⟨List.mem_append_left _ hbmem, hble, ?_⟩
                intro q hq hql
                rcases List.mem_append.mp hq with hq' | hq'
                · exact hbmax q hq' hql
                · simp at hq'
                  subst hq'
                  exact absurd hX (not_lt.mpr hql)
              · rw [if_neg (by simpa using hX)]
                refine ⟨by simp, not_lt.mp hX, ?_⟩
                intro q hq hql
                rcases List.mem_append.mp hq with hq' | hq'
                · exact le_trans (hbmax q hq' hql) (le_of_lt hdn)
                · simp at hq'
                  exact hq' ▸ le_refl _
            · rw [if_neg hdn]
              refine ⟨List.mem_append_left _ hbmem, hble, ?_⟩
              intro q hq hql
              rcases List.mem_append.mp hq with hq' | hq'
              · exact hbmax q hq' hql
              · simp at hq'
                subst hq'
                exact not_lt.mp hdn
      have := ih (seen ++ [p]) (bestFitStep true hw acc p) hstep
      simpa [List.append_assoc] using this

theorem selectBestFit_some_spec (hw : ℚ) (l : List Pipe) (p : Pipe)
    (h : selectBestFit true hw l = some p) :
    p ∈ l ∧ p.weight_per_meter ≤ hw * 1.5 ∧
      ∀ q ∈ l, q.weight_per_meter ≤ hw * 1.5 → q.dn_mm ≤ p.dn_mm := by
  have hinv := bestFit_fold_inv hw l [] none (by simp)
  unfold selectBestFit at h
  rw [h] at hinv
  simpa using hinv

theorem selectBestFit_none_of (hw : ℚ) (l : List Pipe)
    (h : ∀ q ∈ l, hw * 1.5 < q.weight_per_meter) :
    selectBestFit true hw l = none := by
  have hinv := bestFit_fold_inv hw l [] none (by simp)
  cases hres : l.foldl (bestFitStep true hw) none with
  | none => exact hres
  | some b =>
      rw [hres] at hinv
      obtain ⟨hb, hble, _⟩ := hinv
      exact absurd hble (not_le.mpr (h b (by simpa using hb)))

theorem mem_rankCompatible (l : List Pipe) (p : Pipe) :
    p ∈ rankCompatible true l ↔ p ∈ l := by
  simp only [rankCompatible, if_pos rfl, sortByWeightAsc]
  exact (List.perm_insertionSort _ _).mem_iff

/-- C6: with `prefer_lighter`, the pipe the nesting engine picks at a level is
a compatible candidate (narrower than the host and passing gap validation)
whose weight-per-meter is within 1.5× the host's, and it has the largest
outer diameter among all such candidates; when every compatible candidate is
more than 1.5× heavier than the host, nothing is nested at that level
(`nest_pipe_recursive` returns host and pool unchanged). -/
theorem claim_C6_prefer_lighter_selection (host : NestedPipe) (avail : List Pipe) :
    (∀ p : Pipe,
      selectBestFit true host.weight_per_meter
          (rankCompatible true (find_compatible_pipes host.inner_diameter
            host.outer_diameter avail true)) = some p →
        p ∈ avail ∧ p.dn_mm < host.outer_diameter ∧
        (validate_nesting_compatibility host.inner_diameter host.outer_diameter
          p.dn_mm true).is_valid = true ∧
        p.weight_per_meter ≤ host.weight_per_meter * 1.5 ∧
        (∀ q ∈ avail, q.dn_mm < host.outer_diameter →
          (validate_nesting_compatibility host.inner_diameter host.outer_diameter
            q.dn_mm true).is_valid = true →
          q.weight_per_meter ≤ host.weight_per_meter * 1.5 → q.dn_mm ≤ p.dn_mm)) ∧
    ((∀ q ∈ find_compatible_pipes host.inner_diameter host.outer_diameter avail true,
        host.weight_per_meter * 1.5 < q.weight_per_meter) →
      ∀ ml cl : Nat, nest_pipe_recursive host avail ml cl true = (host, avail)) := by
  constructor
  · intro p hp
    obtain ⟨hmem, hle, hmax⟩ := selectBestFit_some_spec _ _ _ hp
    rw [mem_rankCompatible, mem_find_compatible_pipes] at hmem
    refine ⟨hmem.1, hmem.2.1, hmem.2.2, hle, ?_⟩
    intro q hq hqd hqv hql
    exact hmax q ((mem_rankCompatible _ _).mpr
      ((mem_find_compatible_pipes _ _ _ _ _).mpr ⟨hq, hqd, hqv⟩)) hql
  · intro hall ml cl
    have hnone : selectBestFit true host.weight_per_meter
        (rankCompatible true (find_compatible_pipes host.inner_diameter
          host.outer_diameter avail true)) = none := by
      apply selectBestFit_none_of
      intro q hq
      exact hall q ((mem_rankCompatible _ _).mp hq)
    unfold nest_pipe_recursive
    cases hfuel : ml - cl with
    | zero =>
        rw [nestPipeAux]
        split
        · rfl
        · rfl
    | succ n =>
        rw [nestPipeAux]
        split
        · rfl
        · split
          · rfl
          · split
            · rfl
            · rw [hnone]

/-- Witness for C6: the only compatible candidate is 10× heavier than the
host, so nothing is nested. -/
theorem claim_C6_prefer_lighter_selection_witness :
    nest_pipe_recursive (NestedPipe.mk lightHostPipe [] 0) [heavyGuestPipe] 4 1 true =
      (NestedPipe.mk lightHostPipe [] 0, [heavyGuestPipe]) :=
  (claim_C6_prefer_lighter_selection (NestedPipe.mk lightHostPipe [] 0)
      [heavyGuestPipe]).2
    (by
      intro q hq
      rw [mem_find_compatible_pipes] at hq
      rcases hq with ⟨hq1, _, _⟩
      simp only [List.mem_singleton] at hq1
      subst hq1
      exact of_decide_eq_true (by with_unfolding_all rfl))
    4 1

/-! ## C2 — Strategy A never leaves a truck over its payload -/

theorem total_weight_withBundle (cfg : TruckConfig) (t : TruckLoad) (b : NestedPipe) :
    (t.withBundle b).total_weight_kg cfg =
      t.total_weight_kg cfg + b.calculate_bundle_weight cfg.pipe_length_m := by
  simp [TruckLoad.withBundle, TruckLoad.total_weight_kg]

theorem can_fit_weight_le {cfg : TruckConfig} {t : TruckLoad} {b : NestedPipe}
    (h : t.can_fit cfg b = true) :
    b.calculate_bundle_weight cfg.pipe_length_m ≤ t.remaining_capacity_kg cfg := by
  unfold TruckLoad.can_fit at h
  split at h
  · exact absurd h (by simp)
  · rename_i hng
    exact not_lt.mp hng

theorem goodTruck_withBundle {cfg : TruckConfig} {t : TruckLoad} {b : NestedPipe}
    (ht : GoodTruck cfg t) (hb : 0 ≤ b.calculate_bundle_weight cfg.pipe_length_m)
    (hfit : t.can_fit cfg b = true) : GoodTruck cfg (t.withBundle b) := by
  constructor
  · intro x hx
    rcases List.mem_append.mp hx with hx' | hx'
    · exact ht.1 x hx'
    · simp at hx'
      exact hx' ▸ hb
  · rw [total_weight_withBundle]
    have := can_fit_weight_le hfit
    unfold TruckLoad.remaining_capacity_kg at this
    linarith

theorem goodTruck_empty {cfg : TruckConfig} (hpay : 0 ≤ cfg.max_payload_kg) (n : Nat) :
    GoodTruck cfg (TruckLoad.mk n []) := by
  constructor
  · intro b hb; simp at hb
  · simpa [TruckLoad.total_weight_kg] using hpay

theorem placeInFirst_good (cfg : TruckConfig) :
    ∀ (ts : List TruckLoad) (b : NestedPipe) (ts' : List TruckLoad),
      (∀ t ∈ ts, GoodTruck cfg t) →
      0 ≤ b.calculate_bundle_weight cfg.pipe_length_m →
      placeInFirst cfg ts b = some ts' → ∀ t ∈ ts', GoodTruck cfg t := by
  intro ts
  induction ts with
  | nil => intro b ts' _ _ h; simp [placeInFirst] at h
  | cons t0 rest ih =>
      intro b ts' hall hb h
      simp only [placeInFirst] at h
      split at h
      · rename_i hfit
        injection h with h'
        subst h'
        intro t ht
        rcases List.mem_cons.mp ht with rfl | ht'
        · exact goodTruck_withBundle (hall t0 (by simp)) hb hfit
        · exact hall t (by simp [ht'])
      · cases hrec : placeInFirst cfg rest b with
        | some rest' =>
            rw [hrec] at h
            injection h with h'
            subst h'
            intro t ht
            rcases List.mem_cons.mp ht with rfl | ht'
            · exact hall t (by simp)
            · exact ih b rest' (fun x hx => hall x (by simp [hx])) hb hrec t ht'
        | none => rw [hrec] at h; exact absurd h (by simp)

theorem ffdInsert_good (cfg : TruckConfig) (hpay : 0 ≤ cfg.max_payload_kg)
    {ts : List TruckLoad} {b : NestedPipe}
    (hall : ∀ t ∈ ts, GoodTruck cfg t)
    (hb : 0 ≤ b.calculate_bundle_weight cfg.pipe_length_m) :
    ∀ t ∈ ffdInsert cfg ts b, GoodTruck cfg t := by
  unfold ffdInsert
  cases hrec : placeInFirst cfg ts b with
  | some ts' => exact placeInFirst_good cfg ts b ts' hall hb hrec
  | none =>
      intro t ht
      by_cases hfit : (TruckLoad.mk (ts.length + 1) []).can_fit cfg b = true
      · rw [if_pos hfit] at ht
        rcases List.mem_append.mp ht with ht' | ht'
        · exact hall t ht'
        · simp at ht'
          exact ht' ▸ goodTruck_withBundle (goodTruck_empty hpay _) hb hfit
      · rw [if_neg hfit] at ht
        rcases List.mem_append.mp ht with ht' | ht'
        · exact hall t ht'
        · simp at ht'
          exact ht' ▸ goodTruck_empty hpay _

theorem foldl_ffdInsert_good (cfg : TruckConfig) (hpay : 0 ≤ cfg.max_payload_kg) :
    ∀ (l : List NestedPipe) (ts : List TruckLoad),
      (∀ t ∈ ts, GoodTruck cfg t) →
      (∀ b ∈ l, 0 ≤ b.calculate_bundle_weight cfg.pipe_length_m) →
      ∀ t ∈ l.foldl (ffdInsert cfg) ts, GoodTruck cfg t := by
  intro l
  induction l with
  | nil => intro ts h _; simpa using h
  | cons b l ih =>
      intro ts hall hws
      simp only [List.foldl_cons]
      exact ih (ffdInsert cfg ts b)
        (ffdInsert_good cfg hpay hall (hws b (by simp)))
        (fun x hx => hws x (by simp [hx]))

theorem goodTruck_sublist_bundles {cfg : TruckConfig} {t : TruckLoad}
    {kept : List NestedPipe} (ht : GoodTruck cfg t) (hsub : kept.Sublist t.bundles) :
    GoodTruck cfg { t with bundles := kept } := by
  constructor
  · intro b hb
    exact ht.1 b (hsub.subset hb)
  · have hmap : (kept.map (fun b => b.calculate_bundle_weight cfg.pipe_length_m)).Sublist
        (t.bundles.map (fun b => b.calculate_bundle_weight cfg.pipe_length_m)) :=
      hsub.map _
    have hsum := hmap.sum_le_sum (by
      intro a ha
      obtain ⟨x, hx, rfl⟩ := List.mem_map.mp ha
      exact ht.1 x hx)
    calc TruckLoad.total_weight_kg cfg { t with bundles := kept }
        = (kept.map (fun b => b.calculate_bundle_weight cfg.pipe_length_m)).sum := rfl
      _ ≤ (t.bundles.map (fun b => b.calculate_bundle_weight cfg.pipe_length_m)).sum :=
          hsum
      _ ≤ cfg.max_payload_kg := ht.2

theorem moveBundlesToEarlier_spec (cfg : TruckConfig) :
    ∀ (bs : List NestedPipe) (earlier : List TruckLoad),
      (∀ t ∈ earlier, GoodTruck cfg t) →
      (∀ b ∈ bs, 0 ≤ b.calculate_bundle_weight cfg.pipe_length_m) →
      (∀ t ∈ (moveBundlesToEarlier cfg earlier bs).1, GoodTruck cfg t) ∧
      (moveBundlesToEarlier cfg earlier bs).2.1.Sublist bs := by
  intro bs
  induction bs with
  | nil =>
      intro earlier h _
      exact ⟨h, List.Sublist.refl _⟩
  | cons b bs ih =>
      intro earlier hall hws
      simp only [moveBundlesToEarlier]
      cases hrec : placeInFirst cfg earlier b with
      | some earlier' =>
          have hgood := placeInFirst_good cfg earlier b earlier' hall
            (hws b (by simp)) hrec
          have := ih earlier' hgood (fun x hx => hws x (by simp [hx]))
          exact ⟨this.1, this.2.cons _⟩
      | none =>
          have := ih earlier hall (fun x hx => hws x (by simp [hx]))
          exact ⟨this.1, this.2.cons₂ _⟩

theorem rebalanceLoop_good (cfg : TruckConfig) :
    ∀ (fuel : Nat) (trucks : List TruckLoad),
      (∀ t ∈ trucks, GoodTruck cfg t) →
      ∀ t ∈ rebalanceLoop cfg fuel trucks, GoodTruck cfg t := by
  intro fuel
  induction fuel with
  | zero => intro trucks h; simpa [rebalanceLoop] using h
  | succ n ih =>
      intro trucks hall
      simp only [rebalanceLoop]
      cases hlast : trucks.getLast? with
      | none => simpa using hall
      | some last =>
          have hlastgood := hall last (List.mem_of_getLast?_eq_some hlast)
          have hearlier : ∀ t ∈ trucks.dropLast, GoodTruck cfg t :=
            fun t ht => hall t ((List.dropLast_sublist trucks).subset ht)
          have hmove := moveBundlesToEarlier_spec cfg last.bundles trucks.dropLast
            hearlier hlastgood.1
          have hlast' : GoodTruck cfg
              { last with bundles := (moveBundlesToEarlier cfg trucks.dropLast
                  last.bundles).2.1 } :=
            goodTruck_sublist_bundles hlastgood hmove.2
          have happend : ∀ t ∈ (moveBundlesToEarlier cfg trucks.dropLast
              last.bundles).1 ++ [{ last with bundles :=
                (moveBundlesToEarlier cfg trucks.dropLast last.bundles).2.1 }],
              GoodTruck cfg t := by
            intro t ht
            rcases List.mem_append.mp ht with ht' | ht'
            · exact hmove.1 t ht'
            · simp at ht'
              exact ht' ▸ hlast'
          split
          · exact hall
          · rename_i last2 heq
            injection heq with heq2
            subst heq2
            split
            · split
              · exact fun t ht => hmove.1 t ht
              · exact ih _ hmove.1
            · split
              · exact ih _ happend
              · exact happend

theorem eraseFirstBundle_sublist (bd : NestedPipe) :
    ∀ l : List NestedPipe, (eraseFirstBundle bd l).Sublist l := by
  intro l
  induction l with
  | nil => simp [eraseFirstBundle]
  | cons b bs ih =>
      simp only [eraseFirstBundle]
      split
      · exact (List.Sublist.refl bs).cons _
      · exact ih.cons₂ _

theorem moveSmallestImproving_good {cfg : TruckConfig} {s t s' t' : TruckLoad}
    (hs : GoodTruck cfg s) (ht : GoodTruck cfg t)
    (h : moveSmallestImproving cfg s t = some (s', t')) :
    GoodTruck cfg s' ∧ GoodTruck cfg t' := by
  simp only [moveSmallestImproving] at h
  split at h
  · exact absurd h (by simp)
  · rename_i bd hfind
    injection h with h2
    rw [Prod.mk.injEq] at h2
    obtain ⟨hs', ht'⟩ := h2
    subst hs'
    subst ht'
    have hpred := List.find?_some hfind
    simp only [Bool.and_eq_true] at hpred
    have hmem : bd ∈ s.bundles :=
      (List.perm_insertionSort _ _).mem_iff.mp (List.mem_of_find?_eq_some hfind)
    constructor
    · exact goodTruck_sublist_bundles hs (eraseFirstBundle_sublist bd s.bundles)
    · exact goodTruck_withBundle ht (hs.1 bd hmem) hpred.1

theorem tryBalancePair_good {cfg : TruckConfig} {a b : TruckLoad}
    (ha : GoodTruck cfg a) (hb : GoodTruck cfg b) :
    GoodTruck cfg (tryBalancePair cfg a b).1 ∧
    GoodTruck cfg (tryBalancePair cfg a b).2.1 := by
  simp only [tryBalancePair]
  split
  · exact ⟨ha, hb⟩
  · split
    · split
      · exact ⟨ha, hb⟩
      · rename_i pair heq
        obtain ⟨s, t⟩ := pair
        exact moveSmallestImproving_good ha hb heq
    · split
      · exact ⟨ha, hb⟩
      · rename_i pair heq
        obtain ⟨s, t⟩ := pair
        have := moveSmallestImproving_good hb ha heq
        exact ⟨this.2, this.1⟩

theorem tryBalancePairAt_good (cfg : TruckConfig) (trucks : List TruckLoad)
    (i j : Nat) (hall : ∀ t ∈ trucks, GoodTruck cfg t) :
    ∀ t ∈ (tryBalancePairAt cfg trucks i j).1, GoodTruck cfg t := by
  simp only [tryBalancePairAt]
  split
  · rename_i a b heqi heqj
    intro t ht
    have hpair := tryBalancePair_good (hall a (List.getElem?_mem heqi))
      (hall b (List.getElem?_mem heqj))
    rcases List.mem_or_eq_of_mem_set ht with ht1 | rfl
    · rcases List.mem_or_eq_of_mem_set ht1 with ht2 | rfl
      · exact hall t ht2
      · exact hpair.1
    · exact hpair.2
  all_goals intro t ht; exact hall t ht

theorem foldl_balance_good (cfg : TruckConfig) :
    ∀ (ps : List (Nat × Nat)) (acc : List TruckLoad × Bool),
      (∀ t ∈ acc.1, GoodTruck cfg t) →
      ∀ t ∈ (ps.foldl (fun acc ij =>
          let r := tryBalancePairAt cfg acc.1 ij.1 ij.2
          (r.1, acc.2 || r.2)) acc).1, GoodTruck cfg t := by
  intro ps
  induction ps with
  | nil => intro acc h; simpa using h
  | cons ij ps ih =>
      intro acc h
      simp only [List.foldl_cons]
      exact ih _ (tryBalancePairAt_good cfg acc.1 ij.1 ij.2 h)

theorem optimizeOnce_good (cfg : TruckConfig) (trucks : List TruckLoad)
    (hall : ∀ t ∈ trucks, GoodTruck cfg t) :
    ∀ t ∈ (optimizeOnce cfg trucks).1, GoodTruck cfg t :=
  foldl_balance_good cfg (pairIndices trucks.length) (trucks, false) hall

theorem optimizeLoop_good (cfg : TruckConfig) :
    ∀ (fuel : Nat) (trucks : List TruckLoad),
      (∀ t ∈ trucks, GoodTruck cfg t) →
      ∀ t ∈ optimizeLoop cfg fuel trucks, GoodTruck cfg t := by
  intro fuel
  induction fuel with
  | zero => intro trucks h; simpa [optimizeLoop] using h
  | succ n ih =>
      intro trucks hall
      simp only [optimizeLoop]
      split
      · exact ih _ (optimizeOnce_good cfg trucks hall)
      · exact optimizeOnce_good cfg trucks hall

theorem optimize_distribution_good (cfg : TruckConfig) (trucks : List TruckLoad)
    (hall : ∀ t ∈ trucks, GoodTruck cfg t) :
    ∀ t ∈ optimize_distribution cfg trucks, GoodTruck cfg t := by
  unfold optimize_distribution
  split
  · exact hall
  · exact optimizeLoop_good cfg 20 trucks hall

theorem rebalance_trucks_good (cfg : TruckConfig) (trucks : List TruckLoad)
    (hall : ∀ t ∈ trucks, GoodTruck cfg t) :
    ∀ t ∈ rebalance_trucks cfg trucks, GoodTruck cfg t := by
  unfold rebalance_trucks
  split
  · exact hall
  · exact optimize_distribution_good cfg _ (rebalanceLoop_good cfg 10 trucks hall)

theorem renumberTrucksAux_good (cfg : TruckConfig) :
    ∀ (ts : List TruckLoad) (start : Nat),
      (∀ t ∈ ts, GoodTruck cfg t) →
      ∀ t ∈ renumberTrucksAux start ts, GoodTruck cfg t := by
  intro ts
  induction ts with
  | nil => intro start _ t ht; simp [renumberTrucksAux] at ht
  | cons t0 rest ih =>
      intro start hall t ht
      simp only [renumberTrucksAux, List.mem_cons] at ht
      rcases ht with rfl | ht'
      · exact hall t0 (by simp)
      · exact ih (start + 1) (fun x hx => hall x (by simp [hx])) t ht'

/-- C2: `first_fit_decreasing` (including the rebalancing pass and the
pairwise-balancing pass) never returns a truck whose `total_weight_kg` exceeds
`max_payload_kg`, for any nonnegative payload and nonnegative bundle weights. -/
theorem claim_C2_weight_invariant (bundles : List NestedPipe) (cfg : TruckConfig)
    (hpay : 0 ≤ cfg.max_payload_kg)
    (hws : ∀ b ∈ bundles, 0 ≤ b.calculate_bundle_weight cfg.pipe_length_m) :
    ∀ t ∈ (first_fit_decreasing bundles cfg).trucks,
      t.total_weight_kg cfg ≤ cfg.max_payload_kg := by
  intro t ht
  by_cases hemp : bundles.isEmpty
  · simp [first_fit_decreasing, hemp] at ht
  · simp only [first_fit_decreasing, hemp, Bool.false_eq_true, if_false] at ht
    have hsortedws : ∀ b ∈ sortBundlesByWeightDesc cfg.pipe_length_m bundles,
        0 ≤ b.calculate_bundle_weight cfg.pipe_length_m := by
      intro b hb
      exact hws b ((List.perm_insertionSort _ _).mem_iff.mp hb)
    have h1 := foldl_ffdInsert_good cfg hpay
      (sortBundlesByWeightDesc cfg.pipe_length_m bundles) [] (by simp) hsortedws
    have h2 := rebalance_trucks_good cfg _ h1
    have h3 := renumberTrucksAux_good cfg _ 0 h2
    exact (h3 t ht).2

/-- Witness for C2: the single truck produced for one light bundle under the
default configuration stays within the payload. -/
theorem claim_C2_weight_invariant_witness :
    TruckLoad.total_weight_kg defaultTruckConfig
        { truck_number := 1, bundles := [NestedPipe.mk (probePipe 0 100) [] 0] } ≤
      defaultTruckConfig.max_payload_kg :=
  claim_C2_weight_invariant [NestedPipe.mk (probePipe 0 100) [] 0]
    defaultTruckConfig
    (of_decide_eq_true (by with_unfolding_all rfl))
    (by
      intro b hb
      simp only [List.mem_singleton] at hb
      subst hb
      exact of_decide_eq_true (by with_unfolding_all rfl))
    { truck_number := 1, bundles := [NestedPipe.mk (probePipe 0 100) [] 0] }
    (of_decide_eq_true (by with_unfolding_all rfl))

end TLC4Pipes
